import Mathlib

/-!
# Finite-volume pressure assembler (`FVPressure`)

A shallow embedding of `dumux/decoupled/common/fv/fvpressure.hh`:
the construction of the sparsity pattern (`initializeMatrix`), the assembly
of the linear system (`assemble`), the update cycle (`update`, `solve`), the
serialization of the pressure field and the capacity the constructor reserves.

* The grid view, the element index map, the cell data and the four coefficient
  evaluators are template parameters of the class; they are fields of `Problem`.
* `Scalar` is a template parameter as well.  The definitions only use `0`, `+`,
  `-` and unary negation on it; the theorems take it to be a commutative
  additive group (exact arithmetic, rounding is outside the model).
* The evaluators receive the accumulator `entries` by reference, so they are
  functions from the accumulator they are handed to the accumulator they leave.
-/

namespace FVPressure

/-! ## Data model -/

/-- The accumulator `Dune::FieldVector<Scalar, 2>`: `(entries[0], entries[1])`. -/
abbrev Entries (S : Type) := S × S

/-- The part of the grid view the class uses: the element traversal
`begin<0>() .. end<0>()`, the intersection traversal `ibegin(e) .. iend(e)`,
and `neighbor()` / `outside()` of an intersection. -/
structure GridView (E F : Type) where
  elements : List E
  intersections : E → List F
  neighbor : F → Bool
  outside : F → E

/-- The problem the pressure model is built on.  `index` is
`problem().variables().index(element)`, `cellData` is
`problem().variables().cellData(globalIdx)`; the four evaluators are the
methods `getSource`, `getStorage`, `getFlux` and `getFluxOnBoundary`, each
taking the accumulator it is handed and giving the accumulator it leaves.
`index_inj` is the contract of the index map: the traversal visits every
element once and distinct elements have distinct indices. -/
structure Problem (E F CD S : Type) where
  gridView : GridView E F
  index : E → Nat
  cellData : Nat → CD
  getSource : Entries S → E → CD → Bool → Entries S
  getStorage : Entries S → E → CD → Bool → Entries S
  getFlux : Entries S → F → CD → Bool → Entries S
  getFluxOnBoundary : Entries S → F → CD → Bool → Entries S
  index_inj : (gridView.elements.map index).Nodup

/-- The values of the system: the matrix `A_` (entry `A i j`) and the right-hand
side `f_`. -/
structure System (S : Type) where
  A : Nat → Nat → S
  f : Nat → S

/-- Assignment to the matrix entry `A[i][j]`. -/
def setEntry {S : Type} (A : Nat → Nat → S) (i j : Nat) (v : S) : Nat → Nat → S :=
  fun i' j' => if i' = i ∧ j' = j then v else A i' j'

/-- Assignment to the vector entry `f[i]`. -/
def setRhs {S : Type} (f : Nat → S) (i : Nat) (v : S) : Nat → S :=
  fun i' => if i' = i then v else f i'

section Defs

variable {E F CD S : Type}

/-- The index of the cell on the other side of an intersection:
`index(*(isIt->outside()))`. -/
def Problem.outsideIndex (pr : Problem E F CD S) (is : F) : Nat :=
  pr.index (pr.gridView.outside is)

/-- The indices of the neighbours of `e` across its interior faces, in the order
of the intersection traversal. -/
def Problem.neighborIds (pr : Problem E F CD S) (e : E) : List Nat :=
  ((pr.gridView.intersections e).filter pr.gridView.neighbor).map pr.outsideIndex

/-! ## The sparsity pattern -/

/-- The failures of the pattern interface named by the specification. -/
inductive PatternError where
  | TopologyError
  | PatternViolation
  deriving DecidableEq, Repr

/-- Modelled from the spec: the sparsity pattern of the external matrix type
(`PressureCoefficientMatrix`, built in `random` mode), which is not part of the
sources.  `rowsize i` is the size announced for row `i`, `cols i` the column
indices inserted into row `i`, in the order of insertion. -/
structure Pattern where
  rowsize : Nat → Nat
  cols : Nat → List Nat

/-- Modelled from the spec: the pattern of the matrix the constructor creates,
before any row size or index is set. -/
def Pattern.empty : Pattern := ⟨fun _ => 0, fun _ => []⟩

/-- Modelled from the spec: `setrowsize(i, s)` of the external matrix type. -/
def Pattern.setrowsize (P : Pattern) (i s : Nat) : Pattern :=
  { P with rowsize := fun i' => if i' = i then s else P.rowsize i' }

/-- Modelled from the spec: `addindex(i, j)` of the external matrix type.  The
column index is appended to row `i`; an insertion into a row that already holds
as many indices as were announced is the inconsistency the specification calls
`TopologyError`. -/
def Pattern.addindex (P : Pattern) (i j : Nat) : Except PatternError Pattern :=
  if (P.cols i).length < P.rowsize i then
    .ok { P with cols := fun i' => if i' = i then P.cols i ++ [j] else P.cols i' }
  else
    .error .TopologyError

/-- Modelled from the spec: `endindices()` of the external matrix type for a
matrix of `n` rows.  The pattern is committed when every row holds as many
indices as were announced, and fails with `TopologyError` otherwise. -/
def Pattern.endindices (P : Pattern) (n : Nat) : Except PatternError Pattern :=
  if (List.range n).all (fun i => (P.cols i).length == P.rowsize i) then .ok P
  else .error .TopologyError

/-- The inner loop of the first pass of `initializeMatrix`: `rowSize` starts at
`1` and is incremented for every intersection with a neighbour. -/
def rowSize (pr : Problem E F CD S) (e : E) : Nat :=
  (pr.gridView.intersections e).foldl
    (fun rs is => if pr.gridView.neighbor is then rs + 1 else rs) 1

/-- The first pass of `initializeMatrix`: `setrowsize(globalIdxI, rowSize)` for
every element. -/
def setRowSizes (pr : Problem E F CD S) (P : Pattern) : Pattern :=
  pr.gridView.elements.foldl (fun Q e => Q.setrowsize (pr.index e) (rowSize pr e)) P

/-- The inner loop of the second pass: `addindex(globalIdxI, globalIdxJ)` for
every intersection with a neighbour. -/
def addNeighborIndices (pr : Problem E F CD S) (I : Nat) :
    List F → Pattern → Except PatternError Pattern
  | [], P => .ok P
  | is :: rest, P =>
    if pr.gridView.neighbor is then
      match P.addindex I (pr.outsideIndex is) with
      | .ok Q => addNeighborIndices pr I rest Q
      | .error err => .error err
    else addNeighborIndices pr I rest P

/-- The body of the second pass for one element: the diagonal index first, then
the indices of the neighbours. -/
def addRowIndices (pr : Problem E F CD S) (P : Pattern) (e : E) :
    Except PatternError Pattern :=
  match P.addindex (pr.index e) (pr.index e) with
  | .ok Q => addNeighborIndices pr (pr.index e) (pr.gridView.intersections e) Q
  | .error err => .error err

/-- The second pass of `initializeMatrix` over a list of elements. -/
def addIndices (pr : Problem E F CD S) : List E → Pattern → Except PatternError Pattern
  | [], P => .ok P
  | e :: rest, P =>
    match addRowIndices pr P e with
    | .ok Q => addIndices pr rest Q
    | .error err => .error err

/-- `FVPressure::initializeMatrix`: row sizes, `endrowsizes()`, column indices,
`endindices()`.  The matrix has `gridView.size(0)` rows. -/
def initializeMatrix (pr : Problem E F CD S) : Except PatternError Pattern :=
  match addIndices pr pr.gridView.elements (setRowSizes pr Pattern.empty) with
  | .ok P => P.endindices pr.gridView.elements.length
  | .error err => .error err

/-! ## Assembly -/

variable [Zero S] [Add S] [Sub S] [Neg S]

/-- The body of the intersection loop of `assemble` for the cell with index `I`
and cell data `cd`.  The state is the accumulator `entries` together with the
system. -/
def fluxStep (pr : Problem E F CD S) (first : Bool) (I : Nat) (cd : CD)
    (st : Entries S × System S) (is : F) : Entries S × System S :=
  if pr.gridView.neighbor is then
    let J := pr.outsideIndex is
    let entries := pr.getFlux st.1 is cd first
    let f1 := setRhs st.2.f I (st.2.f I - entries.2)
    let A1 := setEntry st.2.A I I (st.2.A I I + entries.1)
    let A2 := setEntry A1 I J (-entries.1)
    (entries, ⟨A2, f1⟩)
  else
    let entries := pr.getFluxOnBoundary st.1 is cd first
    let f1 := setRhs st.2.f I (st.2.f I + entries.2)
    let A1 := setEntry st.2.A I I (st.2.A I I + entries.1)
    (entries, ⟨A1, f1⟩)

/-- The body of the element loop of `assemble`: the traversal step of one cell. -/
def assembleCell (pr : Problem E F CD S) (first : Bool) (sys : System S) (e : E) :
    System S :=
  let I := pr.index e
  let cd := pr.cellData I
  let entries0 : Entries S := (0, 0)
  let entries1 := pr.getSource entries0 e cd first
  let sys1 : System S := ⟨sys.A, setRhs sys.f I entries1.2⟩
  let st := (pr.gridView.intersections e).foldl (fluxStep pr first I cd) (entries1, sys1)
  let entries3 := pr.getStorage st.1 e cd first
  ⟨setEntry st.2.A I I (st.2.A I I + entries3.1), setRhs st.2.f I (st.2.f I + entries3.2)⟩

/-- The system after `A_ = 0; f_ = 0`. -/
def System.zero : System S := ⟨fun _ _ => 0, fun _ => 0⟩

/-- `FVPressure::assemble(first)`.  The argument `sys` is the content of `A_` and
`f_` before the call; both are set to zero before the traversal. -/
def assemble (pr : Problem E F CD S) (first : Bool) (_sys : System S) : System S :=
  pr.gridView.elements.foldl (assembleCell pr first) System.zero

/-! ## The results the evaluators return during the traversal of one cell -/

/-- The accumulator left by the evaluator called for the intersection `is`, when
it is handed the accumulator `en`. -/
def faceEntries (pr : Problem E F CD S) (first : Bool) (cd : CD) (en : Entries S)
    (is : F) : Entries S :=
  if pr.gridView.neighbor is then pr.getFlux en is cd first
  else pr.getFluxOnBoundary en is cd first

/-- The accumulator after the evaluator calls for the intersections `fs`, made
in this order starting from the accumulator `en`. -/
def entriesAfter (pr : Problem E F CD S) (first : Bool) (cd : CD) :
    Entries S → List F → Entries S
  | en, [] => en
  | en, is :: rest => entriesAfter pr first cd (faceEntries pr first cd en is) rest

/-- The results of the evaluator calls for the intersections `fs`, one per
intersection, in traversal order, starting from the accumulator `en`. -/
def fluxEntries (pr : Problem E F CD S) (first : Bool) (cd : CD) :
    Entries S → List F → List (Entries S)
  | _, [] => []
  | en, is :: rest =>
    faceEntries pr first cd en is ::
      fluxEntries pr first cd (faceEntries pr first cd en is) rest

/-- The result of the `getSource` call of cell `e`. -/
def sourceEntries (pr : Problem E F CD S) (first : Bool) (e : E) : Entries S :=
  pr.getSource (0, 0) e (pr.cellData (pr.index e)) first

/-- The results of the flux evaluator calls of cell `e`, paired with their
intersections, in traversal order. -/
def cellFluxEntries (pr : Problem E F CD S) (first : Bool) (e : E) :
    List (F × Entries S) :=
  (pr.gridView.intersections e).zip
    (fluxEntries pr first (pr.cellData (pr.index e)) (sourceEntries pr first e)
      (pr.gridView.intersections e))

/-- The result of the `getStorage` call of cell `e`. -/
def storageEntries (pr : Problem E F CD S) (first : Bool) (e : E) : Entries S :=
  pr.getStorage
    (entriesAfter pr first (pr.cellData (pr.index e)) (sourceEntries pr first e)
      (pr.gridView.intersections e))
    e (pr.cellData (pr.index e)) first

/-- The sum of the matrix coefficients (component 0) of a list of evaluator
results paired with their intersections. -/
def matrixCoeffSum (l : List (F × Entries S)) : S :=
  (l.map (fun p => p.2.1)).sum

/-- The sum of the rhs coefficients (component 1) of the results for interior
faces. -/
def interiorRhsSum (pr : Problem E F CD S) (l : List (F × Entries S)) : S :=
  ((l.filter (fun p => pr.gridView.neighbor p.1)).map (fun p => p.2.2)).sum

/-- The sum of the rhs coefficients (component 1) of the results for boundary
faces. -/
def boundaryRhsSum (pr : Problem E F CD S) (l : List (F × Entries S)) : S :=
  ((l.filter (fun p => !pr.gridView.neighbor p.1)).map (fun p => p.2.2)).sum

/-- The sum of the entries of row `i` of the matrix over the columns `cols`. -/
def System.rowSum (sys : System S) (i : Nat) (cols : List Nat) : S :=
  (cols.map (sys.A i)).sum

end Defs

/-! ## Solutions of the assembled system -/

/-- The vector `p` solves the linear system of an `n`-cell grid:
`Matrix * p = RHS`. -/
def System.IsSolution {S : Type} [AddCommMonoid S] [Mul S] (sys : System S) (n : Nat)
    (p : Fin n → S) : Prop :=
  ∀ i : Fin n, ∑ j : Fin n, sys.A i j * p j = sys.f i

/-- The leading `n × n` block of the matrix, row by row. -/
def System.matrix {S : Type} (sys : System S) (n : Nat) : List (List S) :=
  (List.range n).map (fun i => (List.range n).map (fun j => sys.A i j))

/-- The first `n` entries of the right-hand side. -/
def System.rhs {S : Type} (sys : System S) (n : Nat) : List S :=
  (List.range n).map sys.f

/-- The number of interior faces of a cell. -/
def Problem.interiorNeighborCount {E F CD S : Type} (pr : Problem E F CD S) (e : E) : Nat :=
  (pr.gridView.intersections e).countP pr.gridView.neighbor

/-- The distinct column indices of the row of cell `e`: its own index and the
indices of its neighbours. -/
def Problem.rowColumns {E F CD S : Type} (pr : Problem E F CD S) (e : E) : List Nat :=
  (pr.index e :: pr.neighborIds e).dedup

/-- A closed system: every boundary-flux pair, every source pair and every
storage pair is `(0, 0)`. -/
def Problem.Closed {E F CD S : Type} [Zero S] (pr : Problem E F CD S) : Prop :=
  (∀ en is cd first, pr.getFluxOnBoundary en is cd first = (0, 0)) ∧
  (∀ en e cd first, pr.getSource en e cd first = (0, 0)) ∧
  (∀ en e cd first, pr.getStorage en e cd first = (0, 0))

/-! ## Concrete grids for the scenarios -/

/-- A face of a concrete grid: the cell it belongs to, its position among the
faces of that cell, and the cell on its other side (`none` for a boundary
face). -/
structure Face where
  inside : Nat
  slot : Nat
  outside : Option Nat
  deriving DecidableEq, Repr

/-- The grid view given by a face table: cell `i` is the `i`-th row of the
table, its faces are listed in traversal order. -/
def tableGrid (cells : List (List (Option Nat))) : GridView Nat Face where
  elements := List.range cells.length
  intersections := fun e => (cells.getD e []).enum.map (fun ko => ⟨e, ko.1, ko.2⟩)
  neighbor := fun is => is.outside.isSome
  outside := fun is => is.outside.getD 0

/-- The problem on a face table whose evaluators overwrite the accumulator:
with `flux is` on the interior face `is`, with `bnd is` on the boundary face
`is`, with `src` and `sto` for source and storage. -/
def tableProblem {S : Type} (cells : List (List (Option Nat)))
    (flux bnd : Face → Entries S) (src sto : Entries S) :
    Problem Nat Face Unit S where
  gridView := tableGrid cells
  index := fun e => e
  cellData := fun _ => ()
  getSource := fun _ _ _ _ => src
  getStorage := fun _ _ _ _ => sto
  getFlux := fun _ is _ _ => flux is
  getFluxOnBoundary := fun _ is _ _ => bnd is
  index_inj := by simpa [tableGrid] using List.nodup_range cells.length

/-- The 3-cell chain 0-1-2 of scenario A: cell 0 has a boundary face and a face
towards 1, cell 1 has faces towards 0 and 2, cell 2 has a face towards 1 and a
boundary face. -/
def chainCells : List (List (Option Nat)) :=
  [[none, some 1], [some 0, some 2], [some 1, none]]

/-- Scenario A: flux pair `(1, 0)` on every interior face, `(0, 0)` for boundary
flux, source and storage. -/
def scenarioA : Problem Nat Face Unit ℚ :=
  tableProblem chainCells (fun _ => (1, 0)) (fun _ => (0, 0)) (0, 0) (0, 0)

/-- Scenario A with boundary data: the boundary face of cell 0 has the pair
`(0, 5)`. -/
def scenarioA5 : Problem Nat Face Unit ℚ :=
  tableProblem chainCells (fun _ => (1, 0))
    (fun is => if is.inside = 0 then (0, 5) else (0, 0)) (0, 0) (0, 0)

/-- Scenario B: one cell with one boundary face whose pair is `(2, 10)`. -/
def scenarioB : Problem Nat Face Unit ℚ :=
  tableProblem [[none]] (fun _ => (0, 0)) (fun _ => (2, 10)) (0, 0) (0, 0)

/-- A periodic grid of two cells: both faces of cell 0 lead to cell 1 and both
faces of cell 1 lead to cell 0.  The flux pair of the face in position `k` is
`(k + 1, 0)`; the system is closed. -/
def periodicPair : Problem Nat Face Unit ℚ :=
  tableProblem [[some 1, some 1], [some 0, some 0]] (fun is => ((is.slot : ℚ) + 1, 0))
    (fun _ => (0, 0)) (0, 0) (0, 0)

/-- A periodic grid of one cell: both faces of cell 0 lead back to cell 0.  The
flux pair is `(1, 0)`; the system is closed. -/
def selfAdjacent : Problem Nat Face Unit ℚ :=
  tableProblem [[some 0, some 0]] (fun _ => (1, 0)) (fun _ => (0, 0)) (0, 0) (0, 0)

/-- A grid with asymmetric adjacency: cell 0 reports cell 1 as a neighbour, cell
1 reports no neighbour. -/
def asymmetricPair : Problem Nat Face Unit ℚ :=
  tableProblem [[some 1], [none]] (fun _ => (1, 0)) (fun _ => (0, 0)) (0, 0) (0, 0)

/-! ## The update cycle -/

/-- The state of the pressure model: the system `A_`, `f_` and the pressure
field `pressure_`. -/
structure Model (S : Type) where
  sys : System S
  pressure : Nat → S

/-- The linear solver (`LinearSolver`, a template parameter):
`solver.solve(A_, pressure_, f_)` receives the matrix, the pressure field and the
right-hand side by reference and leaves the three of them. -/
abbrev Solver (S : Type) :=
  (Nat → Nat → S) → (Nat → S) → (Nat → S) → (Nat → Nat → S) × (Nat → S) × (Nat → S)

/-- `FVPressure::solve`: one call of the solver on `A_`, `pressure_`, `f_`. -/
def solve {S : Type} (solver : Solver S) (m : Model S) : Model S :=
  let r := solver m.sys.A m.pressure m.sys.f
  ⟨⟨r.1, r.2.2⟩, r.2.1⟩

/-- `FVPressure::update(solveTwice)`: `assemble(false)`, then `solve()`. -/
def update {E F CD S : Type} [Zero S] [Add S] [Sub S] [Neg S]
    (pr : Problem E F CD S) (solver : Solver S) (_solveTwice : Bool) (m : Model S) :
    Model S :=
  solve solver ⟨assemble pr false m.sys, m.pressure⟩

/-! ## The matrix positions written by `assemble` -/

/-- The matrix positions the traversal step of cell `e` writes, in the order of
the assignments in `assemble`: `(I, I)` and `(I, J)` for an interior face,
`(I, I)` for a boundary face, `(I, I)` for the storage term. -/
def cellWrites {E F CD S : Type} (pr : Problem E F CD S) (e : E) : List (Nat × Nat) :=
  (pr.gridView.intersections e).flatMap
      (fun is =>
        if pr.gridView.neighbor is then
          [(pr.index e, pr.index e), (pr.index e, pr.outsideIndex is)]
        else [(pr.index e, pr.index e)])
    ++ [(pr.index e, pr.index e)]

/-- Modelled from the spec: the access `A_[i][j]` of the external matrix type in
a value-fill.  The entry must belong to the committed pattern; an access outside
of it is the failure the specification calls `PatternViolation`. -/
def Pattern.checkEntry (P : Pattern) (i j : Nat) : Except PatternError Unit :=
  if j ∈ P.cols i then .ok () else .error .PatternViolation

/-! ## The parts of the traversal step of a cell -/

section StepDefs

variable {E F CD S : Type} [Zero S] [Add S] [Sub S] [Neg S]

/-- The source term of the traversal step of cell `e`: the accumulator is
zeroed, `getSource` is called and `f_[I]` is assigned `entries[1]`. -/
def sourceStep (pr : Problem E F CD S) (first : Bool) (e : E) (sys : System S) :
    Entries S × System S :=
  let entries := pr.getSource (0, 0) e (pr.cellData (pr.index e)) first
  (entries, ⟨sys.A, setRhs sys.f (pr.index e) entries.2⟩)

/-- The storage term of the traversal step of cell `e`: `getStorage` is called,
`entries[1]` is added to `f_[I]` and `entries[0]` to `A_[I][I]`. -/
def storageStep (pr : Problem E F CD S) (first : Bool) (e : E)
    (st : Entries S × System S) : System S :=
  let entries := pr.getStorage st.1 e (pr.cellData (pr.index e)) first
  ⟨setEntry st.2.A (pr.index e) (pr.index e)
      (st.2.A (pr.index e) (pr.index e) + entries.1),
    setRhs st.2.f (pr.index e) (st.2.f (pr.index e) + entries.2)⟩

/-- The flux, boundary-flux and storage evaluators overwrite component 0 of the
accumulator: what they leave does not depend on the component 0 they are
handed. -/
def Problem.OverwritesMatrixCoeff (pr : Problem E F CD S) : Prop :=
  (∀ en en' is cd first, en.2 = en'.2 → pr.getFlux en is cd first = pr.getFlux en' is cd first) ∧
  (∀ en en' is cd first, en.2 = en'.2 →
    pr.getFluxOnBoundary en is cd first = pr.getFluxOnBoundary en' is cd first) ∧
  (∀ en en' e cd first, en.2 = en'.2 →
    pr.getStorage en e cd first = pr.getStorage en' e cd first)

/-- Every evaluator overwrites both components of the accumulator: what it
leaves does not depend on the accumulator it is handed. -/
def Problem.Overwrites (pr : Problem E F CD S) : Prop :=
  (∀ en en' e cd first, pr.getSource en e cd first = pr.getSource en' e cd first) ∧
  (∀ en en' is cd first, pr.getFlux en is cd first = pr.getFlux en' is cd first) ∧
  (∀ en en' is cd first,
    pr.getFluxOnBoundary en is cd first = pr.getFluxOnBoundary en' is cd first) ∧
  (∀ en en' e cd first, pr.getStorage en e cd first = pr.getStorage en' e cd first)

/-! ## The assembler as the specification words it -/

/-- The four coefficient evaluators of the specification: each takes a
geometric entity, the cell data and the flag `first` and returns a fresh pair
`(matrixCoeff, rhsCoeff)`. -/
structure Evaluators (E F CD S : Type) where
  source : E → CD → Bool → Entries S
  storage : E → CD → Bool → Entries S
  flux : F → CD → Bool → Entries S
  fluxOnBoundary : F → CD → Bool → Entries S

/-- The evaluators of a problem read as functions returning a fresh pair: each
is called on a zeroed accumulator. -/
def Problem.evaluators (pr : Problem E F CD S) : Evaluators E F CD S where
  source := fun e cd first => pr.getSource (0, 0) e cd first
  storage := fun e cd first => pr.getStorage (0, 0) e cd first
  flux := fun is cd first => pr.getFlux (0, 0) is cd first
  fluxOnBoundary := fun is cd first => pr.getFluxOnBoundary (0, 0) is cd first

/-- Step 3 of the specification's algorithm for one face of cell `I`: for an
interior face with neighbour `J` and pair `(a, b)`, subtract `b` from `RHS[I]`,
add `a` to `Matrix[I][I]`, set `Matrix[I][J] = -a`; for a boundary face add `b`
to `RHS[I]` and `a` to `Matrix[I][I]`. -/
def specFluxStep (pr : Problem E F CD S) (ev : Evaluators E F CD S) (first : Bool)
    (I : Nat) (cd : CD) (sys : System S) (is : F) : System S :=
  if pr.gridView.neighbor is then
    let ab := ev.flux is cd first
    ⟨setEntry (setEntry sys.A I I (sys.A I I + ab.1)) I (pr.outsideIndex is) (-ab.1),
      setRhs sys.f I (sys.f I - ab.2)⟩
  else
    let ab := ev.fluxOnBoundary is cd first
    ⟨setEntry sys.A I I (sys.A I I + ab.1), setRhs sys.f I (sys.f I + ab.2)⟩

/-- The specification's algorithm for one cell: the source pair overwrites
`RHS[I]`, the faces follow, the storage pair is added to `RHS[I]` and
`Matrix[I][I]`. -/
def specAssembleCell (pr : Problem E F CD S) (ev : Evaluators E F CD S) (first : Bool)
    (sys : System S) (e : E) : System S :=
  let I := pr.index e
  let cd := pr.cellData I
  let src := ev.source e cd first
  let sys1 : System S := ⟨sys.A, setRhs sys.f I src.2⟩
  let sys2 := (pr.gridView.intersections e).foldl (specFluxStep pr ev first I cd) sys1
  let sto := ev.storage e cd first
  ⟨setEntry sys2.A I I (sys2.A I I + sto.1), setRhs sys2.f I (sys2.f I + sto.2)⟩

/-- The specification's `assemble(first)` on the grid of `pr` with evaluators
that return fresh pairs. -/
def specAssemble (pr : Problem E F CD S) (ev : Evaluators E F CD S) (first : Bool) :
    System S :=
  pr.gridView.elements.foldl (specAssembleCell pr ev first) System.zero

end StepDefs

/-- The 3-cell chain of scenario A with the source pair `(x, 0)`. -/
def sourceChain (x : ℚ) : Problem Nat Face Unit ℚ :=
  tableProblem chainCells (fun _ => (1, 0)) (fun _ => (0, 0)) (x, 0) (0, 0)

/-- One cell with one boundary face, source pair `(0, 7)`, storage pair
`(0, 0)`, and a boundary-flux evaluator that leaves the accumulator untouched. -/
def untouchedBoundary : Problem Nat Face Unit ℚ where
  gridView := tableGrid [[none]]
  index := fun e => e
  cellData := fun _ => ()
  getSource := fun _ _ _ _ => (0, 7)
  getStorage := fun _ _ _ _ => (0, 0)
  getFlux := fun _ _ _ _ => (0, 0)
  getFluxOnBoundary := fun en _ _ _ => en
  index_inj := by decide

/-! ## Assembly with fallible evaluators and a record of the invocations -/

/-- An evaluator invocation made in the traversal step of cell `e`. -/
inductive Call (E F : Type) where
  | getSource (e : E)
  | getFlux (e : E) (is : F)
  | getFluxOnBoundary (e : E) (is : F)
  | getStorage (e : E)
  deriving DecidableEq, Repr

/-- The four evaluators as fallible functions: an invocation leaves an
accumulator or throws an error. -/
structure FallibleEvaluators (E F CD S Err : Type) where
  getSource : Entries S → E → CD → Bool → Except Err (Entries S)
  getStorage : Entries S → E → CD → Bool → Except Err (Entries S)
  getFlux : Entries S → F → CD → Bool → Except Err (Entries S)
  getFluxOnBoundary : Entries S → F → CD → Bool → Except Err (Entries S)

/-- The evaluators of a problem as fallible evaluators that never fail. -/
def Problem.totalEvaluators {E F CD S : Type} (pr : Problem E F CD S) (Err : Type) :
    FallibleEvaluators E F CD S Err where
  getSource := fun en e cd first => .ok (pr.getSource en e cd first)
  getStorage := fun en e cd first => .ok (pr.getStorage en e cd first)
  getFlux := fun en is cd first => .ok (pr.getFlux en is cd first)
  getFluxOnBoundary := fun en is cd first => .ok (pr.getFluxOnBoundary en is cd first)

/-- The record of a run: the evaluator invocations made so far, each with its
outcome, in the order in which they were made. -/
abbrev CallLog (E F S Err : Type) := List (Call E F × Except Err (Entries S))

/-- A run: the record of the invocations and the outcome, a value or the error
that was thrown. -/
abbrev Run (E F S Err α : Type) := CallLog E F S Err × Except Err α

/-- A run that makes no invocation and returns `a`. -/
def Run.done {E F S Err α : Type} (a : α) : Run E F S Err α := ([], .ok a)

/-- The run that consists of the one evaluator invocation `c` with outcome `r`. -/
def Run.invoke {E F S Err : Type} (c : Call E F) (r : Except Err (Entries S)) :
    Run E F S Err (Entries S) :=
  ([(c, r)], r)

/-- Sequencing of statements: the statements `k` that follow the run `r` are
executed when `r` returned, and are skipped when `r` threw. -/
def Run.andThen {E F S Err α β : Type} (r : Run E F S Err α) (k : α → Run E F S Err β) :
    Run E F S Err β :=
  match r.2 with
  | .ok a => (r.1 ++ (k a).1, (k a).2)
  | .error err => (r.1, .error err)

section FallibleDefs

variable {E F CD S Err : Type} [Zero S] [Add S] [Sub S] [Neg S]

/-- The body of the intersection loop of `assemble` with fallible evaluators. -/
def fluxStepE (pr : Problem E F CD S) (ev : FallibleEvaluators E F CD S Err)
    (first : Bool) (e : E) (st : Entries S × System S) (is : F) :
    Run E F S Err (Entries S × System S) :=
  let I := pr.index e
  let cd := pr.cellData I
  if pr.gridView.neighbor is then
    (Run.invoke (.getFlux e is) (ev.getFlux st.1 is cd first)).andThen fun entries =>
      let f1 := setRhs st.2.f I (st.2.f I - entries.2)
      let A1 := setEntry st.2.A I I (st.2.A I I + entries.1)
      let A2 := setEntry A1 I (pr.outsideIndex is) (-entries.1)
      Run.done (entries, ⟨A2, f1⟩)
  else
    (Run.invoke (.getFluxOnBoundary e is) (ev.getFluxOnBoundary st.1 is cd first)).andThen
      fun entries =>
        let f1 := setRhs st.2.f I (st.2.f I + entries.2)
        let A1 := setEntry st.2.A I I (st.2.A I I + entries.1)
        Run.done (entries, ⟨A1, f1⟩)

/-- The intersection loop of `assemble` with fallible evaluators. -/
def faceLoopE (pr : Problem E F CD S) (ev : FallibleEvaluators E F CD S Err)
    (first : Bool) (e : E) :
    List F → Entries S × System S → Run E F S Err (Entries S × System S)
  | [], st => Run.done st
  | is :: rest, st => (fluxStepE pr ev first e st is).andThen (faceLoopE pr ev first e rest)

/-- The traversal step of one cell with fallible evaluators. -/
def assembleCellE (pr : Problem E F CD S) (ev : FallibleEvaluators E F CD S Err)
    (first : Bool) (sys : System S) (e : E) : Run E F S Err (System S) :=
  let I := pr.index e
  let cd := pr.cellData I
  (Run.invoke (.getSource e) (ev.getSource (0, 0) e cd first)).andThen fun entries1 =>
    (faceLoopE pr ev first e (pr.gridView.intersections e)
        (entries1, ⟨sys.A, setRhs sys.f I entries1.2⟩)).andThen fun st =>
      (Run.invoke (.getStorage e) (ev.getStorage st.1 e cd first)).andThen fun entries3 =>
        Run.done ⟨setEntry st.2.A I I (st.2.A I I + entries3.1),
          setRhs st.2.f I (st.2.f I + entries3.2)⟩

/-- The element loop of `assemble` with fallible evaluators. -/
def cellLoopE (pr : Problem E F CD S) (ev : FallibleEvaluators E F CD S Err)
    (first : Bool) : List E → System S → Run E F S Err (System S)
  | [], sys => Run.done sys
  | e :: rest, sys => (assembleCellE pr ev first sys e).andThen (cellLoopE pr ev first rest)

/-- `FVPressure::assemble(first)` on the grid of `pr` with the fallible
evaluators `ev`: the record of the evaluator invocations, and the assembled
system or the error that ended the assembly. -/
def assembleE (pr : Problem E F CD S) (ev : FallibleEvaluators E F CD S Err)
    (first : Bool) (_sys : System S) : Run E F S Err (System S) :=
  cellLoopE pr ev first pr.gridView.elements System.zero

end FallibleDefs

/-- The evaluator invocations of the traversal step of cell `e`, in the order of
the statements of `assemble`: source, faces in face order, storage. -/
def cellCalls {E F CD S : Type} (pr : Problem E F CD S) (e : E) : List (Call E F) :=
  Call.getSource e ::
    (pr.gridView.intersections e).map
      (fun is => if pr.gridView.neighbor is then Call.getFlux e is
        else Call.getFluxOnBoundary e is)
    ++ [Call.getStorage e]

/-- The evaluator invocations of a whole traversal, cell by cell. -/
def traversalCalls {E F CD S : Type} (pr : Problem E F CD S) : List (Call E F) :=
  pr.gridView.elements.flatMap (cellCalls pr)

/-- The flux evaluator invocations among a sequence of invocations: the cell and
the intersection of each `getFlux` call. -/
def fluxCalls {E F : Type} (calls : List (Call E F)) : List (E × F) :=
  calls.filterMap fun c =>
    match c with
    | .getFlux e is => some (e, is)
    | _ => none

/-- The invocations of a record, without their outcomes. -/
def CallLog.calls {E F S Err : Type} (log : CallLog E F S Err) : List (Call E F) :=
  log.map Prod.fst

/-- The run makes the invocations `calls` in this order: its record is a prefix
of `calls`, and the whole of `calls` when the run returned. -/
def Run.Follows {E F S Err α : Type} (r : Run E F S Err α) (calls : List (Call E F)) :
    Prop :=
  r.1.calls <+: calls ∧ ∀ a, r.2 = .ok a → r.1.calls = calls

/-- Symmetric adjacency: the cell on the other side of an interior face is a
cell of the grid and has an interior face that leads back. -/
def Problem.Symmetric {E F CD S : Type} (pr : Problem E F CD S) : Prop :=
  ∀ e ∈ pr.gridView.elements, ∀ is ∈ pr.gridView.intersections e,
    pr.gridView.neighbor is = true →
      pr.gridView.outside is ∈ pr.gridView.elements ∧
      ∃ is' ∈ pr.gridView.intersections (pr.gridView.outside is),
        pr.gridView.neighbor is' = true ∧ pr.outsideIndex is' = pr.index e

section SymmetryDefs

variable {E F CD S : Type} [Zero S] [Add S] [Sub S] [Neg S]

/-- The flux evaluator returns the same matrix coefficient for a shared face
from both sides: the result for a face of `e` towards `e'` and the result for a
face of `e'` towards `e` have the same component 0. -/
def Problem.SymmetricFlux (pr : Problem E F CD S) (first : Bool) : Prop :=
  ∀ e ∈ pr.gridView.elements, ∀ e' ∈ pr.gridView.elements,
    ∀ p ∈ cellFluxEntries pr first e, ∀ p' ∈ cellFluxEntries pr first e',
      pr.gridView.neighbor p.1 = true → pr.gridView.neighbor p'.1 = true →
        pr.outsideIndex p.1 = pr.index e' → pr.outsideIndex p'.1 = pr.index e →
          p.2.1 = p'.2.1

/-- The sum of the matrix coefficients (component 0) of the results for boundary
faces. -/
def boundaryCoeffSum (pr : Problem E F CD S) (l : List (F × Entries S)) : S :=
  ((l.filter (fun p => !pr.gridView.neighbor p.1)).map (fun p => p.2.1)).sum

/-- The sum of the matrix coefficients (component 0) of the results for the
earlier faces towards a repeated neighbour: the interior faces that are
followed, later in the traversal of the cell, by a face towards the same
neighbour. -/
def shadowedCoeffSum (pr : Problem E F CD S) : List (F × Entries S) → S
  | [] => 0
  | p :: rest =>
    (if pr.gridView.neighbor p.1 = true ∧
        pr.outsideIndex p.1 ∈
          ((rest.map Prod.fst).filter pr.gridView.neighbor).map pr.outsideIndex
      then p.2.1 else 0)
      + shadowedCoeffSum pr rest

end SymmetryDefs

/-- A periodic grid of two cells in which cell 0 has two faces towards cell 1
and a third face that leads back to cell 0.  The flux pair of the face in
position `k` is `(k + 1, 0)`; the system is closed. -/
def periodicSelf : Problem Nat Face Unit ℚ :=
  tableProblem [[some 1, some 1, some 0], [some 0, some 0]]
    (fun is => ((is.slot : ℚ) + 1, 0)) (fun _ => (0, 0)) (0, 0) (0, 0)

/-! ## Serialization of the pressure field -/

/-- Modelled from the spec: a stream of the serialization collaborator, as the
sequence of scalar values written to it, or still to be read from it, one value
per cell.  The byte layout of the stream is an external contract. -/
abbrev ValueStream (S : Type) := List S

section SerializationDefs

variable {E F CD S : Type}

/-- `FVPressure::serializeEntity`: `outstream << pressure_[globalIdx][0]`.  The
entries of `pressure_` are blocks of one component (the accessor
`pressure(globalIdx)` returns an entry as a `Scalar`), so `pressure i` stands for
`pressure_[i][0]`. -/
def serializeEntity (pr : Problem E F CD S) (outstream : ValueStream S) (m : Model S)
    (element : E) : ValueStream S × Model S :=
  let globalIdx := pr.index element
  (outstream ++ [m.pressure globalIdx], m)

/-- `FVPressure::deserializeEntity`: `instream >> pressure_[globalIdx][0]`.  The
next value of the stream is assigned to the entry; an extraction from an
exhausted stream leaves the entry as it is. -/
def deserializeEntity (pr : Problem E F CD S) (instream : ValueStream S) (m : Model S)
    (element : E) : ValueStream S × Model S :=
  let globalIdx := pr.index element
  match instream with
  | [] => ([], m)
  | v :: rest => (rest, ⟨m.sys, setRhs m.pressure globalIdx v⟩)

/-- Modelled from the spec: the serialization collaborator persists one scalar
per cell, calling `serializeEntity` for the cells in cell-traversal order. -/
def serializeEntities (pr : Problem E F CD S) (outstream : ValueStream S) (m : Model S) :
    ValueStream S × Model S :=
  pr.gridView.elements.foldl (fun st e => serializeEntity pr st.1 st.2 e) (outstream, m)

/-- Modelled from the spec: the serialization collaborator restores one scalar
per cell, calling `deserializeEntity` for the cells in the same traversal
order. -/
def deserializeEntities (pr : Problem E F CD S) (instream : ValueStream S) (m : Model S) :
    ValueStream S × Model S :=
  pr.gridView.elements.foldl (fun st e => deserializeEntity pr st.1 st.2 e) (instream, m)

/-! ## The capacity reserved by the constructor -/

/-- The number of nonzeros the constructor `FVPressure(problem)` reserves for the
matrix: `(2 * dim + 1) * problem.gridView().size(0)`, where `dim` is
`GridView::dimension`. -/
def nonzeroCapacity (dim : Nat) (pr : Problem E F CD S) : Nat :=
  (2 * dim + 1) * pr.gridView.elements.length

/-- The total number of nonzeros requested for the rows `rows` of a pattern: the
sum of the announced row sizes. -/
def Pattern.requestedNonzeros (P : Pattern) (rows : List Nat) : Nat :=
  (rows.map P.rowsize).sum

end SerializationDefs

/-! ## Exact and rounding scalar arithmetic -/

/-- The arithmetic of `Scalar` is exact: `0`, `+`, `-` and negation obey the laws
of a commutative additive group.  A floating-point `Scalar` does not meet them. -/
structure ExactScalar (S : Type) [Zero S] [Add S] [Sub S] [Neg S] : Prop where
  add_assoc : ∀ a b c : S, a + b + c = a + (b + c)
  add_comm : ∀ a b : S, a + b = b + a
  zero_add : ∀ a : S, 0 + a = a
  neg_add_cancel : ∀ a : S, -a + a = 0
  sub_eq_add_neg : ∀ a b : S, a - b = a + -b

/-- The commutative additive group an exact scalar arithmetic forms, with the
operations of `S` themselves. -/
@[reducible] def ExactScalar.toAddCommGroup {S : Type} [Zero S] [Add S] [Sub S] [Neg S]
    (h : ExactScalar S) : AddCommGroup S where
  add := (· + ·)
  zero := 0
  neg := fun a => -a
  sub := fun a b => a - b
  add_assoc := h.add_assoc
  zero_add := h.zero_add
  add_zero := fun a => (h.add_comm a 0).trans (h.zero_add a)
  nsmul := nsmulRec
  zsmul := zsmulRec
  neg_add_cancel := h.neg_add_cancel
  add_comm := h.add_comm
  sub_eq_add_neg := h.sub_eq_add_neg

section FoldDefs

variable {E F CD S : Type} [Zero S] [Add S] [Sub S] [Neg S]

/-- The value the statements `A_[I][I] += entries[0]` of the intersection loop
accumulate from `x`, for the evaluator results `l` in traversal order. -/
def diagFold (l : List (F × Entries S)) (x : S) : S :=
  l.foldl (fun acc p => acc + p.2.1) x

/-- The value the statements `f_[I] -= entries[1]` (interior face) and
`f_[I] += entries[1]` (boundary face) of the intersection loop accumulate from
`x`, for the evaluator results `l` in traversal order. -/
def rhsFold (pr : Problem E F CD S) (l : List (F × Entries S)) (x : S) : S :=
  l.foldl (fun acc p => if pr.gridView.neighbor p.1 then acc - p.2.2 else acc + p.2.2) x

end FoldDefs

/-- A scalar type with rounding, a small model of a floating-point `Scalar`: the
values are integers, and a sum or difference whose magnitude reaches 100 is
rounded down to a multiple of 10. -/
structure Rounded where
  val : Int
  deriving DecidableEq, Repr

/-- Rounding of an exact result to a representable value. -/
def Rounded.round (x : Int) : Rounded :=
  if x.natAbs < 100 then ⟨x⟩ else ⟨x / 10 * 10⟩

instance : Zero Rounded := ⟨⟨0⟩⟩

instance : Add Rounded := ⟨fun a b => Rounded.round (a.val + b.val)⟩

instance : Sub Rounded := ⟨fun a b => Rounded.round (a.val - b.val)⟩

instance : Neg Rounded := ⟨fun a => ⟨-a.val⟩⟩

/-- The flux pair of the rounding scenarios: `(1000, 0)` for the face in
position 0, `(5, 0)` for the other faces. -/
def roundedFlux (is : Face) : Entries Rounded :=
  (if is.slot = 0 then ⟨1000⟩ else ⟨5⟩, 0)

/-- A closed system over the rounding scalars: cell 0 has interior faces towards
the cells 1, 2 and 3, with the matrix coefficients `1000`, `5` and `5`. -/
def roundedStar : Problem Nat Face Unit Rounded :=
  tableProblem [[some 1, some 2, some 3], [some 0], [some 0], [some 0]] roundedFlux
    (fun _ => (0, 0)) (0, 0) (0, 0)

/-- A closed system over the rounding scalars in which cell 0 has two faces
towards cell 1, with the matrix coefficients `1000` and `5`, and one face
towards cell 2, with the coefficient `5`. -/
def roundedRepeat : Problem Nat Face Unit Rounded :=
  tableProblem [[some 1, some 1, some 2], [some 0, some 0], [some 0]] roundedFlux
    (fun _ => (0, 0)) (0, 0) (0, 0)

/-- A system over the rounding scalars: the source pair is `(0, 1)` and cell 0
has interior faces towards the cells 1 and 2 with the rhs coefficients `1000`
and `-1000`. -/
def roundedRhs : Problem Nat Face Unit Rounded :=
  tableProblem [[some 1, some 2], [some 0], [some 0]]
    (fun is => (0, if is.slot = 0 then ⟨1000⟩ else ⟨-1000⟩))
    (fun _ => (0, 0)) (0, ⟨1⟩) (0, 0)

/-- One cell with one boundary face, source pair `(x, 0)`, storage pair `(0, 0)`,
and a boundary-flux evaluator that leaves the accumulator untouched. -/
def untouchedSource (x : ℚ) : Problem Nat Face Unit ℚ where
  gridView := tableGrid [[none]]
  index := fun e => e
  cellData := fun _ => ()
  getSource := fun _ _ _ _ => (x, 0)
  getStorage := fun _ _ _ _ => (0, 0)
  getFlux := fun _ _ _ _ => (0, 0)
  getFluxOnBoundary := fun en _ _ _ => en
  index_inj := by decide

/-! ## The update cycle with a record of the calls -/

/-- A call `update` makes on the pressure model. -/
inductive ModelCall where
  | assemble (first : Bool)
  | solve
  deriving DecidableEq, Repr

/-- The pressure model together with the record of the calls made on it, in the
order in which they were made. -/
structure TracedModel (S : Type) where
  model : Model S
  calls : List ModelCall

section TracedDefs

variable {E F CD S : Type} [Zero S] [Add S] [Sub S] [Neg S]

/-- The call `assemble(first)` on the pressure model. -/
def assembleT (pr : Problem E F CD S) (first : Bool) (t : TracedModel S) : TracedModel S :=
  ⟨⟨assemble pr first t.model.sys, t.model.pressure⟩, t.calls ++ [ModelCall.assemble first]⟩

/-- The call `solve()` on the pressure model. -/
def solveT (solver : Solver S) (t : TracedModel S) : TracedModel S :=
  ⟨solve solver t.model, t.calls ++ [ModelCall.solve]⟩

/-- `FVPressure::update(solveTwice)` with the record of its calls:
`problem().pressureModel().assemble(false)`, then
`problem().pressureModel().solve()`. -/
def updateT (pr : Problem E F CD S) (solver : Solver S) (_solveTwice : Bool)
    (t : TracedModel S) : TracedModel S :=
  solveT solver (assembleT pr false t)

end TracedDefs

/-- A solver for systems with a diagonal matrix: `p[i] = f[i] / A[i][i]`; it
leaves the matrix and the right-hand side as they are. -/
def diagonalSolver : Solver ℚ :=
  fun A _ f => (A, fun i => f i / A i i, f)

/-! ## Lemmas on the intersection loop -/

section FaceLoop

variable {E F CD S : Type}

theorem setEntry_same (A : Nat → Nat → S) (i j : Nat) (v : S) :
    setEntry A i j v i j = v := by
  simp [setEntry]

theorem setEntry_other (A : Nat → Nat → S) (i j : Nat) (v : S) (i' j' : Nat)
    (h : i' ≠ i ∨ j' ≠ j) : setEntry A i j v i' j' = A i' j' := by
  unfold setEntry
  rw [if_neg]
  rintro ⟨h1, h2⟩
  rcases h with h | h
  · exact h h1
  · exact h h2

theorem setRhs_same (f : Nat → S) (i : Nat) (v : S) : setRhs f i v i = v := by
  simp [setRhs]

theorem setRhs_other (f : Nat → S) (i : Nat) (v : S) (i' : Nat) (h : i' ≠ i) :
    setRhs f i v i' = f i' := by
  simp [setRhs, h]

variable [Zero S] [Add S] [Sub S] [Neg S]
variable (pr : Problem E F CD S) (first : Bool) (I : Nat) (cd : CD)

omit [Zero S] in
theorem fluxStep_fst (st : Entries S × System S) (is : F) :
    (fluxStep pr first I cd st is).1 = faceEntries pr first cd st.1 is := by
  unfold fluxStep faceEntries
  split <;> rfl

omit [Zero S] in
theorem fluxStep_A_other_row (st : Entries S × System S) (is : F) (i j : Nat)
    (h : i ≠ I) : (fluxStep pr first I cd st is).2.A i j = st.2.A i j := by
  unfold fluxStep
  split
  · simp only []
    rw [setEntry_other _ _ _ _ _ _ (Or.inl h), setEntry_other _ _ _ _ _ _ (Or.inl h)]
  · simp only []
    rw [setEntry_other _ _ _ _ _ _ (Or.inl h)]

omit [Zero S] in
theorem fluxStep_f_other (st : Entries S × System S) (is : F) (i : Nat)
    (h : i ≠ I) : (fluxStep pr first I cd st is).2.f i = st.2.f i := by
  unfold fluxStep
  split <;> simp only [] <;> rw [setRhs_other _ _ _ _ h]

omit [Zero S] in
theorem fluxStep_A_other_col (st : Entries S × System S) (is : F) (j : Nat)
    (hj : j ≠ I) (hn : pr.gridView.neighbor is = true → pr.outsideIndex is ≠ j) :
    (fluxStep pr first I cd st is).2.A I j = st.2.A I j := by
  unfold fluxStep
  split
  · rename_i h
    simp only []
    rw [setEntry_other _ _ _ _ _ _ (Or.inr (Ne.symm (hn h))),
      setEntry_other _ _ _ _ _ _ (Or.inr hj)]
  · simp only []
    rw [setEntry_other _ _ _ _ _ _ (Or.inr hj)]

omit [Zero S] in
theorem fluxStep_A_diag (st : Entries S × System S) (is : F)
    (hn : pr.gridView.neighbor is = true → pr.outsideIndex is ≠ I) :
    (fluxStep pr first I cd st is).2.A I I =
      st.2.A I I + (faceEntries pr first cd st.1 is).1 := by
  unfold fluxStep faceEntries
  split
  · rename_i h
    simp only []
    rw [setEntry_other _ _ _ _ _ _ (Or.inr (Ne.symm (hn h))), setEntry_same]
  · simp only []
    rw [setEntry_same]

omit [Zero S] in
theorem fluxStep_A_off (st : Entries S × System S) (is : F)
    (h : pr.gridView.neighbor is = true) :
    (fluxStep pr first I cd st is).2.A I (pr.outsideIndex is) =
      -(pr.getFlux st.1 is cd first).1 := by
  unfold fluxStep
  rw [if_pos h]
  simp only []
  rw [setEntry_same]

omit [Zero S] [Add S] [Sub S] [Neg S] in
theorem zip_fluxEntries_cons (en : Entries S) (is : F) (rest : List F) :
    (is :: rest).zip (fluxEntries pr first cd en (is :: rest)) =
      (is, faceEntries pr first cd en is) ::
        rest.zip (fluxEntries pr first cd (faceEntries pr first cd en is) rest) := by
  simp [fluxEntries]

omit [Zero S] in
theorem faceLoop_fst (fs : List F) (st : Entries S × System S) :
    (fs.foldl (fluxStep pr first I cd) st).1 = entriesAfter pr first cd st.1 fs := by
  induction fs generalizing st with
  | nil => rfl
  | cons is rest ih =>
    rw [List.foldl_cons, ih, fluxStep_fst]
    rfl

omit [Zero S] in
theorem faceLoop_A_other_row (fs : List F) (st : Entries S × System S) (i j : Nat)
    (h : i ≠ I) : (fs.foldl (fluxStep pr first I cd) st).2.A i j = st.2.A i j := by
  induction fs generalizing st with
  | nil => rfl
  | cons is rest ih =>
    rw [List.foldl_cons, ih, fluxStep_A_other_row _ _ _ _ _ _ _ _ h]

omit [Zero S] in
theorem faceLoop_f_other (fs : List F) (st : Entries S × System S) (i : Nat)
    (h : i ≠ I) : (fs.foldl (fluxStep pr first I cd) st).2.f i = st.2.f i := by
  induction fs generalizing st with
  | nil => rfl
  | cons is rest ih =>
    rw [List.foldl_cons, ih, fluxStep_f_other _ _ _ _ _ _ _ h]

omit [Zero S] in
theorem faceLoop_A_other_col (fs : List F) (st : Entries S × System S) (j : Nat)
    (hj : j ≠ I)
    (hn : ∀ is ∈ fs, pr.gridView.neighbor is = true → pr.outsideIndex is ≠ j) :
    (fs.foldl (fluxStep pr first I cd) st).2.A I j = st.2.A I j := by
  induction fs generalizing st with
  | nil => rfl
  | cons is rest ih =>
    rw [List.foldl_cons, ih _ (fun x hx => hn x (List.mem_cons_of_mem _ hx)),
      fluxStep_A_other_col _ _ _ _ _ _ _ hj (hn is (List.mem_cons_self _ _))]

omit [Zero S] in
theorem faceLoop_A_off (pre post : List F) (is : F) (st : Entries S × System S)
    (h : pr.gridView.neighbor is = true) (hI : pr.outsideIndex is ≠ I)
    (hpost : ∀ x ∈ post, pr.gridView.neighbor x = true →
      pr.outsideIndex x ≠ pr.outsideIndex is) :
    ((pre ++ is :: post).foldl (fluxStep pr first I cd) st).2.A I (pr.outsideIndex is) =
      -(pr.getFlux (entriesAfter pr first cd st.1 pre) is cd first).1 := by
  rw [List.foldl_append, List.foldl_cons, faceLoop_A_other_col _ _ _ _ _ _ _ hI hpost,
    fluxStep_A_off _ _ _ _ _ _ h, faceLoop_fst]

omit [Zero S] [Add S] [Sub S] [Neg S] in
theorem not_mem_neighbors (fs : List F) (j : Nat)
    (h : j ∉ (fs.filter pr.gridView.neighbor).map pr.outsideIndex) :
    ∀ x ∈ fs, pr.gridView.neighbor x = true → pr.outsideIndex x ≠ j := by
  intro x hx hnb hj
  exact h (List.mem_map.mpr ⟨x, List.mem_filter.mpr ⟨hx, hnb⟩, hj⟩)

end FaceLoop

/-! ## Lemmas on the intersection loop for exact arithmetic -/

section FaceLoopExact

variable {E F CD S : Type} [AddCommGroup S]
variable (pr : Problem E F CD S) (first : Bool) (I : Nat) (cd : CD)

theorem fluxStep_f_same (st : Entries S × System S) (is : F) :
    (fluxStep pr first I cd st is).2.f I =
      st.2.f I - interiorRhsSum pr [(is, faceEntries pr first cd st.1 is)]
        + boundaryRhsSum pr [(is, faceEntries pr first cd st.1 is)] := by
  unfold fluxStep faceEntries interiorRhsSum boundaryRhsSum
  split
  · rename_i h
    simp [setRhs_same, h]
  · rename_i h
    simp [setRhs_same, h]

theorem matrixCoeffSum_cons (p : F × Entries S) (l : List (F × Entries S)) :
    matrixCoeffSum (p :: l) = p.2.1 + matrixCoeffSum l := by
  simp [matrixCoeffSum]

theorem interiorRhsSum_cons (p : F × Entries S) (l : List (F × Entries S)) :
    interiorRhsSum pr (p :: l) = interiorRhsSum pr [p] + interiorRhsSum pr l := by
  unfold interiorRhsSum
  by_cases h : pr.gridView.neighbor p.1 = true <;> simp [List.filter_cons, h]

theorem boundaryRhsSum_cons (p : F × Entries S) (l : List (F × Entries S)) :
    boundaryRhsSum pr (p :: l) = boundaryRhsSum pr [p] + boundaryRhsSum pr l := by
  unfold boundaryRhsSum
  by_cases h : pr.gridView.neighbor p.1 = true <;> simp [List.filter_cons, h]

theorem faceLoop_f_same (fs : List F) (st : Entries S × System S) :
    (fs.foldl (fluxStep pr first I cd) st).2.f I =
      st.2.f I - interiorRhsSum pr (fs.zip (fluxEntries pr first cd st.1 fs))
        + boundaryRhsSum pr (fs.zip (fluxEntries pr first cd st.1 fs)) := by
  induction fs generalizing st with
  | nil => simp [interiorRhsSum, boundaryRhsSum, fluxEntries]
  | cons is rest ih =>
    rw [List.foldl_cons, ih, fluxStep_f_same, fluxStep_fst, zip_fluxEntries_cons,
      interiorRhsSum_cons pr (is, faceEntries pr first cd st.1 is) (rest.zip _),
      boundaryRhsSum_cons pr (is, faceEntries pr first cd st.1 is) (rest.zip _)]
    abel

theorem faceLoop_A_diag (fs : List F) (st : Entries S × System S)
    (hn : ∀ is ∈ fs, pr.gridView.neighbor is = true → pr.outsideIndex is ≠ I) :
    (fs.foldl (fluxStep pr first I cd) st).2.A I I =
      st.2.A I I + matrixCoeffSum (fs.zip (fluxEntries pr first cd st.1 fs)) := by
  induction fs generalizing st with
  | nil => simp [matrixCoeffSum, fluxEntries]
  | cons is rest ih =>
    rw [List.foldl_cons, ih _ (fun x hx => hn x (List.mem_cons_of_mem _ hx)),
      fluxStep_A_diag _ _ _ _ _ _ (hn is (List.mem_cons_self _ _)), fluxStep_fst,
      zip_fluxEntries_cons, matrixCoeffSum_cons, add_assoc]

theorem faceLoop_rowSum (fs : List F) (st : Entries S × System S)
    (hb : ∀ en is, (pr.getFluxOnBoundary en is cd first).1 = 0)
    (hnd : (I :: (fs.filter pr.gridView.neighbor).map pr.outsideIndex).Nodup) :
    (fs.foldl (fluxStep pr first I cd) st).2.rowSum I
        (I :: (fs.filter pr.gridView.neighbor).map pr.outsideIndex) = st.2.A I I := by
  induction fs generalizing st with
  | nil => simp [System.rowSum]
  | cons is rest ih =>
    by_cases h : pr.gridView.neighbor is = true
    · rw [List.filter_cons_of_pos h, List.map_cons] at hnd ⊢
      have hI : pr.outsideIndex is ≠ I := by
        intro hc
        exact (List.nodup_cons.mp hnd).1 (by rw [hc]; exact List.mem_cons_self _ _)
      have hnd2 := (List.nodup_cons.mp hnd).2
      have hJ := (List.nodup_cons.mp hnd2).1
      have hnd3 : (I :: (rest.filter pr.gridView.neighbor).map pr.outsideIndex).Nodup :=
        List.nodup_cons.mpr
          ⟨fun hc => (List.nodup_cons.mp hnd).1 (List.mem_cons_of_mem _ hc),
            (List.nodup_cons.mp hnd2).2⟩
      have h1 := ih (fluxStep pr first I cd st is) hnd3
      have h2 := faceLoop_A_other_col pr first I cd rest (fluxStep pr first I cd st is)
        (pr.outsideIndex is) hI (not_mem_neighbors pr rest _ hJ)
      rw [fluxStep_A_off _ _ _ _ _ _ h] at h2
      rw [fluxStep_A_diag _ _ _ _ _ _ (fun _ => hI)] at h1
      simp only [System.rowSum, List.map_cons, List.sum_cons, List.foldl_cons] at h1 ⊢
      rw [h2]
      have h3 : faceEntries pr first cd st.1 is = pr.getFlux st.1 is cd first := by
        simp [faceEntries, h]
      rw [h3] at h1
      rw [add_left_comm, h1]
      abel
    · rw [List.filter_cons_of_neg h] at hnd ⊢
      have h1 := ih (fluxStep pr first I cd st is) hnd
      rw [fluxStep_A_diag _ _ _ _ _ _ (fun hc => absurd hc h)] at h1
      have h3 : (faceEntries pr first cd st.1 is).1 = 0 := by
        simp [faceEntries, h, hb]
      rw [List.foldl_cons, h1, h3, add_zero]

end FaceLoopExact

/-! ## Lemmas on the traversal step of a cell and on the traversal -/

section CellLoop

variable {E F CD S : Type} [Zero S] [Add S] [Sub S] [Neg S]
variable (pr : Problem E F CD S) (first : Bool)

theorem assembleCell_A_other_row (sys : System S) (e : E) (i j : Nat)
    (h : i ≠ pr.index e) : (assembleCell pr first sys e).A i j = sys.A i j := by
  unfold assembleCell
  simp only []
  rw [setEntry_other _ _ _ _ _ _ (Or.inl h), faceLoop_A_other_row _ _ _ _ _ _ _ _ h]

theorem assembleCell_f_other (sys : System S) (e : E) (i : Nat)
    (h : i ≠ pr.index e) : (assembleCell pr first sys e).f i = sys.f i := by
  unfold assembleCell
  simp only []
  rw [setRhs_other _ _ _ _ h, faceLoop_f_other _ _ _ _ _ _ _ h]
  exact setRhs_other _ _ _ _ h

theorem assembleCell_A_other_col (sys : System S) (e : E) (j : Nat)
    (hj : j ≠ pr.index e) (hn : j ∉ pr.neighborIds e) :
    (assembleCell pr first sys e).A (pr.index e) j = sys.A (pr.index e) j := by
  unfold assembleCell
  simp only []
  rw [setEntry_other _ _ _ _ _ _ (Or.inr hj),
    faceLoop_A_other_col _ _ _ _ _ _ _ hj (not_mem_neighbors pr _ _ hn)]

theorem assembleCell_A_off (sys : System S) (e : E) (pre post : List F) (is : F)
    (hfs : pr.gridView.intersections e = pre ++ is :: post)
    (h : pr.gridView.neighbor is = true) (hI : pr.outsideIndex is ≠ pr.index e)
    (hpost : ∀ x ∈ post, pr.gridView.neighbor x = true →
      pr.outsideIndex x ≠ pr.outsideIndex is) :
    (assembleCell pr first sys e).A (pr.index e) (pr.outsideIndex is) =
      -(pr.getFlux
          (entriesAfter pr first (pr.cellData (pr.index e)) (sourceEntries pr first e) pre)
          is (pr.cellData (pr.index e)) first).1 := by
  unfold assembleCell
  simp only []
  rw [setEntry_other _ _ _ _ _ _ (Or.inr hI), hfs,
    faceLoop_A_off _ _ _ _ _ _ _ _ h hI hpost]
  rfl

theorem cellLoop_frame (l : List E) (sys : System S) (i : Nat)
    (h : ∀ e ∈ l, pr.index e ≠ i) :
    (∀ j, (l.foldl (assembleCell pr first) sys).A i j = sys.A i j) ∧
      (l.foldl (assembleCell pr first) sys).f i = sys.f i := by
  induction l generalizing sys with
  | nil => exact ⟨fun _ => rfl, rfl⟩
  | cons e rest ih =>
    have h1 := ih (assembleCell pr first sys e) (fun x hx => h x (List.mem_cons_of_mem _ hx))
    have hne : i ≠ pr.index e := Ne.symm (h e (List.mem_cons_self _ _))
    refine ⟨fun j => ?_, ?_⟩
    · rw [List.foldl_cons, h1.1, assembleCell_A_other_row _ _ _ _ _ _ hne]
    · rw [List.foldl_cons, h1.2, assembleCell_f_other _ _ _ _ _ hne]

/-- The row of a cell after `assemble` is the row its traversal step computes
from a system whose row is still zero. -/
theorem assemble_row (s : System S) (e : E) (he : e ∈ pr.gridView.elements) :
    ∃ sys : System S, (∀ j, sys.A (pr.index e) j = 0) ∧
      (∀ j, (assemble pr first s).A (pr.index e) j =
        (assembleCell pr first sys e).A (pr.index e) j) ∧
      (assemble pr first s).f (pr.index e) = (assembleCell pr first sys e).f (pr.index e) := by
  obtain ⟨l1, l2, hl⟩ := List.append_of_mem he
  have hnd := pr.index_inj
  rw [hl, List.map_append, List.map_cons] at hnd
  have h1 : ∀ x ∈ l1, pr.index x ≠ pr.index e := by
    intro x hx hc
    have := (List.nodup_append.mp hnd).2.2
    exact this (List.mem_map_of_mem _ hx) (by rw [hc]; exact List.mem_cons_self _ _)
  have h2 : ∀ x ∈ l2, pr.index x ≠ pr.index e := by
    intro x hx hc
    have := (List.nodup_cons.mp (List.nodup_append.mp hnd).2.1).1
    exact this (by rw [← hc]; exact List.mem_map_of_mem _ hx)
  have hA := cellLoop_frame pr first l1 System.zero (pr.index e) h1
  refine ⟨l1.foldl (assembleCell pr first) System.zero, fun j => ?_, fun j => ?_, ?_⟩
  · rw [hA.1]; rfl
  · unfold assemble
    rw [hl, List.foldl_append, List.foldl_cons]
    exact (cellLoop_frame pr first l2 _ (pr.index e) h2).1 j
  · unfold assemble
    rw [hl, List.foldl_append, List.foldl_cons]
    exact (cellLoop_frame pr first l2 _ (pr.index e) h2).2

end CellLoop

/-! ## Lemmas on the traversal step of a cell for exact arithmetic -/

section CellLoopExact

variable {E F CD S : Type} [AddCommGroup S]
variable (pr : Problem E F CD S) (first : Bool)

theorem assembleCell_f_same (sys : System S) (e : E) :
    (assembleCell pr first sys e).f (pr.index e) =
      (sourceEntries pr first e).2 - interiorRhsSum pr (cellFluxEntries pr first e)
        + boundaryRhsSum pr (cellFluxEntries pr first e)
        + (storageEntries pr first e).2 := by
  unfold assembleCell
  simp only []
  rw [setRhs_same, faceLoop_f_same, faceLoop_fst]
  dsimp only
  rw [setRhs_same]
  rfl

theorem assembleCell_A_diag (sys : System S) (e : E)
    (hn : pr.index e ∉ pr.neighborIds e) :
    (assembleCell pr first sys e).A (pr.index e) (pr.index e) =
      sys.A (pr.index e) (pr.index e) + matrixCoeffSum (cellFluxEntries pr first e)
        + (storageEntries pr first e).1 := by
  unfold assembleCell
  simp only []
  rw [setEntry_same, faceLoop_A_diag _ _ _ _ _ _ (not_mem_neighbors pr _ _ hn),
    faceLoop_fst]
  rfl

theorem assembleCell_rowSum (sys : System S) (e : E)
    (hb : ∀ en is cd, (pr.getFluxOnBoundary en is cd first).1 = 0)
    (hs : ∀ en x cd, (pr.getStorage en x cd first).1 = 0)
    (hnd : (pr.index e :: pr.neighborIds e).Nodup) :
    (assembleCell pr first sys e).rowSum (pr.index e) (pr.index e :: pr.neighborIds e) =
      sys.A (pr.index e) (pr.index e) := by
  have h0 := faceLoop_rowSum pr first (pr.index e) (pr.cellData (pr.index e))
    (pr.gridView.intersections e)
    (pr.getSource (0, 0) e (pr.cellData (pr.index e)) first,
      ⟨sys.A, setRhs sys.f (pr.index e)
        (pr.getSource (0, 0) e (pr.cellData (pr.index e)) first).2⟩)
    (fun en is => hb en is _) hnd
  have hI : pr.index e ∉ pr.neighborIds e := (List.nodup_cons.mp hnd).1
  simp only [System.rowSum, List.map_cons, List.sum_cons] at h0 ⊢
  have hrest : ∀ l : List Nat, pr.index e ∉ l →
      l.map ((assembleCell pr first sys e).A (pr.index e)) =
        l.map (((pr.gridView.intersections e).foldl
          (fluxStep pr first (pr.index e) (pr.cellData (pr.index e)))
          (pr.getSource (0, 0) e (pr.cellData (pr.index e)) first,
            ⟨sys.A, setRhs sys.f (pr.index e)
              (pr.getSource (0, 0) e (pr.cellData (pr.index e)) first).2⟩)).2.A
          (pr.index e)) := by
    intro l hl
    apply List.map_congr_left
    intro j hj
    unfold assembleCell
    simp only []
    rw [setEntry_other _ _ _ _ _ _ (Or.inr (fun hc : j = pr.index e => hl (hc ▸ hj)))]
  rw [hrest _ hI]
  unfold assembleCell
  simp only []
  rw [setEntry_same, hs, add_zero]
  exact h0

end CellLoopExact

/-! ## Lemmas on the pattern construction -/

section PatternLemmas

variable {E F CD S : Type} (pr : Problem E F CD S)

theorem rowSize_loop (fs : List F) (n : Nat) :
    fs.foldl (fun rs is => if pr.gridView.neighbor is then rs + 1 else rs) n =
      n + (fs.filter pr.gridView.neighbor).length := by
  induction fs generalizing n with
  | nil => simp
  | cons is rest ih =>
    rw [List.foldl_cons, ih]
    by_cases h : pr.gridView.neighbor is = true
    · simp [h]; omega
    · simp [h]

theorem rowSize_eq (e : E) : rowSize pr e = 1 + (pr.neighborIds e).length := by
  unfold rowSize Problem.neighborIds
  rw [rowSize_loop, List.length_map]

theorem setRowSizes_loop (l : List E) (P : Pattern) :
    (l.foldl (fun Q e => Q.setrowsize (pr.index e) (rowSize pr e)) P).cols = P.cols ∧
      (∀ i, i ∉ l.map pr.index →
        (l.foldl (fun Q e => Q.setrowsize (pr.index e) (rowSize pr e)) P).rowsize i
          = P.rowsize i) ∧
      ((l.map pr.index).Nodup → ∀ e ∈ l,
        (l.foldl (fun Q e => Q.setrowsize (pr.index e) (rowSize pr e)) P).rowsize
          (pr.index e) = rowSize pr e) := by
  induction l generalizing P with
  | nil => simp
  | cons x rest ih =>
    obtain ⟨h1, h2, h3⟩ := ih (P.setrowsize (pr.index x) (rowSize pr x))
    refine ⟨?_, ?_, ?_⟩
    · rw [List.foldl_cons, h1]; rfl
    · intro i hi
      rw [List.map_cons, List.mem_cons, not_or] at hi
      rw [List.foldl_cons, h2 i hi.2]
      simp [Pattern.setrowsize, hi.1]
    · intro hnd e he
      rw [List.map_cons, List.nodup_cons] at hnd
      rw [List.foldl_cons]
      rcases List.mem_cons.mp he with rfl | he2
      · rw [h2 _ hnd.1]
        simp [Pattern.setrowsize]
      · exact h3 hnd.2 e he2

theorem addindex_ok (P : Pattern) (i j : Nat) (h : (P.cols i).length < P.rowsize i) :
    ∃ Q, P.addindex i j = .ok Q ∧ Q.rowsize = P.rowsize ∧
      Q.cols i = P.cols i ++ [j] ∧ ∀ i', i' ≠ i → Q.cols i' = P.cols i' := by
  refine ⟨_, if_pos h, rfl, ?_, ?_⟩
  · simp
  · intro i' hi
    simp [hi]

theorem addNeighborIndices_ok (I : Nat) (fs : List F) (P : Pattern)
    (h : (P.cols I).length + (fs.filter pr.gridView.neighbor).length ≤ P.rowsize I) :
    ∃ Q, addNeighborIndices pr I fs P = .ok Q ∧ Q.rowsize = P.rowsize ∧
      Q.cols I = P.cols I ++ (fs.filter pr.gridView.neighbor).map pr.outsideIndex ∧
      ∀ i, i ≠ I → Q.cols i = P.cols i := by
  induction fs generalizing P with
  | nil => exact ⟨P, rfl, rfl, by simp, fun _ _ => rfl⟩
  | cons is rest ih =>
    by_cases hnb : pr.gridView.neighbor is = true
    · rw [List.filter_cons_of_pos hnb, List.length_cons] at h
      obtain ⟨Q, hQ, hrs, hc, ho⟩ := addindex_ok P I (pr.outsideIndex is) (by omega)
      obtain ⟨R, hR, hrs2, hc2, ho2⟩ := ih Q (by
        rw [hc, hrs, List.length_append, List.length_singleton]; omega)
      refine ⟨R, ?_, hrs2.trans hrs, ?_, fun i hi => (ho2 i hi).trans (ho i hi)⟩
      · rw [addNeighborIndices, if_pos hnb, hQ]
        exact hR
      · rw [hc2, hc, List.filter_cons_of_pos hnb, List.map_cons, List.append_assoc]
        rfl
    · rw [List.filter_cons_of_neg hnb] at h
      obtain ⟨R, hR, hrs2, hc2, ho2⟩ := ih P h
      refine ⟨R, ?_, hrs2, ?_, ho2⟩
      · rw [addNeighborIndices, if_neg hnb]
        exact hR
      · rw [hc2, List.filter_cons_of_neg hnb]

theorem addRowIndices_ok (P : Pattern) (e : E) (hc : P.cols (pr.index e) = [])
    (hr : P.rowsize (pr.index e) = rowSize pr e) :
    ∃ Q, addRowIndices pr P e = .ok Q ∧ Q.rowsize = P.rowsize ∧
      Q.cols (pr.index e) = pr.index e :: pr.neighborIds e ∧
      ∀ i, i ≠ pr.index e → Q.cols i = P.cols i := by
  have hsz := rowSize_eq pr e
  obtain ⟨Q, hQ, hrs, hcols, ho⟩ := addindex_ok P (pr.index e) (pr.index e) (by
    rw [hc, hr, hsz]; simp)
  obtain ⟨R, hR, hrs2, hc2, ho2⟩ := addNeighborIndices_ok pr (pr.index e)
    (pr.gridView.intersections e) Q (by
      rw [hcols, hc, hrs, hr, hsz]
      simp [Problem.neighborIds])
  refine ⟨R, ?_, hrs2.trans hrs, ?_, fun i hi => (ho2 i hi).trans (ho i hi)⟩
  · rw [addRowIndices, hQ]
    exact hR
  · rw [hc2, hcols, hc]
    rfl

theorem addIndices_ok (l : List E) (P : Pattern) (hnd : (l.map pr.index).Nodup)
    (h : ∀ e ∈ l, P.cols (pr.index e) = [] ∧ P.rowsize (pr.index e) = rowSize pr e) :
    ∃ Q, addIndices pr l P = .ok Q ∧ Q.rowsize = P.rowsize ∧
      (∀ e ∈ l, Q.cols (pr.index e) = pr.index e :: pr.neighborIds e) ∧
      ∀ i, i ∉ l.map pr.index → Q.cols i = P.cols i := by
  induction l generalizing P with
  | nil => exact ⟨P, rfl, rfl, by simp, fun _ _ => rfl⟩
  | cons x rest ih =>
    rw [List.map_cons, List.nodup_cons] at hnd
    obtain ⟨Q, hQ, hrs, hc, ho⟩ := addRowIndices_ok pr P x
      (h x (List.mem_cons_self _ _)).1 (h x (List.mem_cons_self _ _)).2
    have hne : ∀ e ∈ rest, pr.index e ≠ pr.index x := fun e he hc =>
      hnd.1 (hc ▸ List.mem_map_of_mem _ he)
    obtain ⟨R, hR, hrs2, hc2, ho2⟩ := ih Q hnd.2 (fun e he => by
      rw [ho _ (hne e he), hrs]
      exact h e (List.mem_cons_of_mem _ he))
    refine ⟨R, ?_, hrs2.trans hrs, ?_, ?_⟩
    · rw [addIndices, hQ]
      exact hR
    · intro e he
      rcases List.mem_cons.mp he with rfl | he2
      · rw [ho2 _ hnd.1, hc]
      · exact hc2 e he2
    · intro i hi
      rw [List.map_cons, List.mem_cons, not_or] at hi
      rw [ho2 i hi.2, ho i hi.1]

/-- The pattern `initializeMatrix` returns: it never fails, the row of a cell
holds the diagonal index followed by the neighbour indices in traversal order,
and its announced size is one plus the number of interior faces. -/
theorem initializeMatrix_ok :
    ∃ P, initializeMatrix pr = .ok P ∧
      (∀ e ∈ pr.gridView.elements,
        P.cols (pr.index e) = pr.index e :: pr.neighborIds e ∧
        P.rowsize (pr.index e) = rowSize pr e) ∧
      ∀ i, i ∉ pr.gridView.elements.map pr.index → P.cols i = [] ∧ P.rowsize i = 0 := by
  obtain ⟨h1, h2, h3⟩ := setRowSizes_loop pr pr.gridView.elements Pattern.empty
  obtain ⟨Q, hQ, hrs, hc, ho⟩ := addIndices_ok pr pr.gridView.elements
    (setRowSizes pr Pattern.empty) pr.index_inj (fun e he => by
      refine ⟨?_, h3 pr.index_inj e he⟩
      unfold setRowSizes
      rw [h1]
      rfl)
  have hrow : ∀ e ∈ pr.gridView.elements, Q.rowsize (pr.index e) = rowSize pr e :=
    fun e he => by rw [hrs]; exact h3 pr.index_inj e he
  have hout : ∀ i, i ∉ pr.gridView.elements.map pr.index →
      Q.cols i = [] ∧ Q.rowsize i = 0 := by
    intro i hi
    refine ⟨?_, ?_⟩
    · rw [ho i hi]
      unfold setRowSizes
      rw [h1]
      rfl
    · rw [hrs]
      exact (h2 i hi).trans rfl
  refine ⟨Q, ?_, fun e he => ⟨hc e he, hrow e he⟩, hout⟩
  unfold initializeMatrix
  rw [hQ]
  show Q.endindices pr.gridView.elements.length = .ok Q
  unfold Pattern.endindices
  rw [if_pos]
  rw [List.all_eq_true]
  intro i _
  rw [beq_iff_eq]
  by_cases hi : i ∈ pr.gridView.elements.map pr.index
  · obtain ⟨e, he, rfl⟩ := List.mem_map.mp hi
    rw [hc e he, hrow e he, rowSize_eq]
    simp; omega
  · rw [(hout i hi).1, (hout i hi).2]
    rfl

end PatternLemmas


/-! ## The pattern built by `initializeMatrix` -/

section PatternClaims

variable {E F CD S : Type}

/-- C1 (as amended): for every grid and every cell `I`, `initializeMatrix`
returns a pattern for whose row `I` it announces the size
`1 + interiorNeighborCount(I)` and into whose row `I` it inserts exactly that
many column indices, namely `I` and the indices of the neighbours of `I` across
its interior faces; no column index is inserted twice exactly when these
neighbours are pairwise distinct and different from `I`. -/
theorem C1_pattern_row (pr : Problem E F CD S) (e : E) (he : e ∈ pr.gridView.elements) :
    ∃ P, initializeMatrix pr = .ok P ∧
      P.rowsize (pr.index e) = 1 + pr.interiorNeighborCount e ∧
      (P.cols (pr.index e)).length = 1 + pr.interiorNeighborCount e ∧
      (∀ j, j ∈ P.cols (pr.index e) ↔ j = pr.index e ∨ j ∈ pr.neighborIds e) ∧
      ((P.cols (pr.index e)).Nodup ↔
        pr.index e ∉ pr.neighborIds e ∧ (pr.neighborIds e).Nodup) := by
  obtain ⟨P, hP, hrow, _⟩ := initializeMatrix_ok pr
  have hcount : (pr.neighborIds e).length = pr.interiorNeighborCount e := by
    rw [Problem.neighborIds, List.length_map, Problem.interiorNeighborCount,
      List.countP_eq_length_filter]
  refine ⟨P, hP, ?_, ?_, ?_, ?_⟩
  · rw [(hrow e he).2, rowSize_eq, hcount]
  · rw [(hrow e he).1, List.length_cons, hcount]
    omega
  · intro j
    rw [(hrow e he).1, List.mem_cons]
  · rw [(hrow e he).1, List.nodup_cons]

/-- C1, witness: cell 1 of the 3-cell chain. -/
theorem C1_pattern_row_witness :
    1 ∈ scenarioA.gridView.elements ∧
    ∃ P, initializeMatrix scenarioA = .ok P ∧
      P.rowsize (scenarioA.index 1) = 1 + scenarioA.interiorNeighborCount 1 ∧
      (P.cols (scenarioA.index 1)).length = 1 + scenarioA.interiorNeighborCount 1 ∧
      (∀ j, j ∈ P.cols (scenarioA.index 1) ↔
        j = scenarioA.index 1 ∨ j ∈ scenarioA.neighborIds 1) ∧
      ((P.cols (scenarioA.index 1)).Nodup ↔
        scenarioA.index 1 ∉ scenarioA.neighborIds 1 ∧ (scenarioA.neighborIds 1).Nodup) :=
  ⟨by decide, C1_pattern_row scenarioA 1 (by decide)⟩

/-- C1, counterexample: in the periodic grid of two cells, both faces of cell 0
lead to cell 1, and row 0 of the pattern receives the column index 1 twice. -/
theorem C1_counterexample_duplicate_column :
    (initializeMatrix periodicPair).map (fun P => P.cols 0) = .ok [0, 1, 1] ∧
      ∃ P, initializeMatrix periodicPair = .ok P ∧ ¬ (P.cols 0).Nodup := by
  refine ⟨rfl, ?_⟩
  obtain ⟨P, hP, hrow, _⟩ := initializeMatrix_ok periodicPair
  have h : P.cols 0 = [0, 1, 1] := (hrow 0 (by decide)).1
  refine ⟨P, hP, ?_⟩
  rw [h]
  decide

/-- C10 (as amended): `initializeMatrix` makes no symmetry check.  For every
grid it returns a pattern; when cell `I` reports cell `J` as a neighbour while
`J` does not report `I`, the pattern holds the column `J` in row `I` and does
not hold the column `I` in row `J`. -/
theorem C10_asymmetric_adjacency_accepted (pr : Problem E F CD S) (eI eJ : E)
    (hI : eI ∈ pr.gridView.elements) (hJ : eJ ∈ pr.gridView.elements)
    (hne : pr.index eI ≠ pr.index eJ)
    (hIJ : pr.index eJ ∈ pr.neighborIds eI) (hJI : pr.index eI ∉ pr.neighborIds eJ) :
    ∃ P, initializeMatrix pr = .ok P ∧ pr.index eJ ∈ P.cols (pr.index eI) ∧
      pr.index eI ∉ P.cols (pr.index eJ) := by
  obtain ⟨P, hP, hrow, _⟩ := initializeMatrix_ok pr
  refine ⟨P, hP, ?_, ?_⟩
  · rw [(hrow eI hI).1]
    exact List.mem_cons_of_mem _ hIJ
  · rw [(hrow eJ hJ).1, List.mem_cons, not_or]
    exact ⟨hne, hJI⟩

/-- C10, witness: the grid in which cell 0 reports cell 1 and cell 1 reports no
neighbour. -/
theorem C10_asymmetric_adjacency_accepted_witness :
    (0 ∈ asymmetricPair.gridView.elements ∧ 1 ∈ asymmetricPair.gridView.elements ∧
      asymmetricPair.index 0 ≠ asymmetricPair.index 1 ∧
      asymmetricPair.index 1 ∈ asymmetricPair.neighborIds 0 ∧
      asymmetricPair.index 0 ∉ asymmetricPair.neighborIds 1) ∧
    ∃ P, initializeMatrix asymmetricPair = .ok P ∧
      asymmetricPair.index 1 ∈ P.cols (asymmetricPair.index 0) ∧
      asymmetricPair.index 0 ∉ P.cols (asymmetricPair.index 1) :=
  ⟨by decide,
    C10_asymmetric_adjacency_accepted asymmetricPair 0 1 (by decide) (by decide)
      (by decide) (by decide) (by decide)⟩

/-- C10, counterexample: on the grid in which cell 0 reports cell 1 as a
neighbour and cell 1 does not report cell 0, `initializeMatrix` does not fail
with `TopologyError`; it returns the pattern with rows `[0, 1]` and `[1]`. -/
theorem C10_counterexample_no_topology_error :
    asymmetricPair.neighborIds 0 = [1] ∧ asymmetricPair.neighborIds 1 = [] ∧
      (initializeMatrix asymmetricPair).map (fun P => [P.cols 0, P.cols 1])
        = .ok [[0, 1], [1]] ∧
      ¬ ∃ P, initializeMatrix asymmetricPair = .error P := by
  have h : (initializeMatrix asymmetricPair).map (fun P => [P.cols 0, P.cols 1])
      = .ok [[0, 1], [1]] := rfl
  refine ⟨by decide, by decide, h, ?_⟩
  rintro ⟨err, herr⟩
  rw [herr] at h
  cases h

end PatternClaims


/-! ## The system built by `assemble` -/

section AssembleClaims

variable {E F CD S : Type} [AddCommGroup S]

/-- C2 (as amended): for every grid, every cell `I` and every interior face of
`I` whose neighbour `J` differs from `I` and is not the neighbour of a later
face of `I`, after `assemble(first)` the entry `Matrix[I][J]` is the negation of
component 0 of the pair the flux evaluator returns for that face (called with
the cell data of `I` and the flag `first`); the traversal step of any other
cell, that of `J` in particular, writes nothing to row `I`. -/
theorem C2_offdiagonal_entry (pr : Problem E F CD S) (first : Bool) (s : System S)
    (e : E) (pre post : List F) (is : F) (he : e ∈ pr.gridView.elements)
    (hfs : pr.gridView.intersections e = pre ++ is :: post)
    (hnb : pr.gridView.neighbor is = true)
    (hIJ : pr.outsideIndex is ≠ pr.index e)
    (hlast : ∀ x ∈ post, pr.gridView.neighbor x = true →
      pr.outsideIndex x ≠ pr.outsideIndex is) :
    (assemble pr first s).A (pr.index e) (pr.outsideIndex is) =
        -(pr.getFlux
            (entriesAfter pr first (pr.cellData (pr.index e)) (sourceEntries pr first e) pre)
            is (pr.cellData (pr.index e)) first).1 ∧
      ∀ (sys : System S) (e' : E), pr.index e' ≠ pr.index e →
        ∀ j, (assembleCell pr first sys e').A (pr.index e) j = sys.A (pr.index e) j := by
  obtain ⟨sys, _, hA, _⟩ := assemble_row pr first s e he
  refine ⟨?_, fun sys' e' hne j => assembleCell_A_other_row pr first sys' e' _ j (Ne.symm hne)⟩
  rw [hA, assembleCell_A_off pr first sys e pre post is hfs hnb hIJ hlast]

/-- With exact arithmetic the diagonal entry of a cell without a face that leads back
to it is the storage coefficient plus the sum of the face coefficients. -/
theorem assemble_diag_exact (pr : Problem E F CD S) (first : Bool) (s : System S)
    (e : E) (he : e ∈ pr.gridView.elements) (hself : pr.index e ∉ pr.neighborIds e) :
    (assemble pr first s).A (pr.index e) (pr.index e) =
      (storageEntries pr first e).1 + matrixCoeffSum (cellFluxEntries pr first e) := by
  obtain ⟨sys, h0, hA, _⟩ := assemble_row pr first s e he
  rw [hA, assembleCell_A_diag pr first sys e hself, h0]
  abel

/-- With exact arithmetic the right-hand side entry of a cell is the source
coefficient minus the interior coefficients plus the boundary coefficients plus
the storage coefficient. -/
theorem assemble_rhs_exact (pr : Problem E F CD S) (first : Bool) (s : System S)
    (e : E) (he : e ∈ pr.gridView.elements) :
    (assemble pr first s).f (pr.index e) =
      (sourceEntries pr first e).2 - interiorRhsSum pr (cellFluxEntries pr first e)
        + boundaryRhsSum pr (cellFluxEntries pr first e)
        + (storageEntries pr first e).2 := by
  obtain ⟨sys, _, _, hf⟩ := assemble_row pr first s e he
  rw [hf, assembleCell_f_same]

/-- C5: the matrix and the right-hand side produced by `assemble(false)` do not
depend on the values they held before the call, and a second call of
`assemble(false)` right after the first yields the same matrix and right-hand
side. -/
theorem C5_assemble_resets (pr : Problem E F CD S) (s s' : System S) :
    assemble pr false s = assemble pr false s' ∧
      assemble pr false (assemble pr false s) = assemble pr false s :=
  ⟨rfl, rfl⟩

/-- With exact arithmetic the row of a cell of a closed system whose neighbours are
pairwise distinct and different from it sums to zero. -/
theorem assemble_rowSum_closed (pr : Problem E F CD S) (first : Bool) (s : System S)
    (e : E) (he : e ∈ pr.gridView.elements) (hclosed : pr.Closed)
    (hself : pr.index e ∉ pr.neighborIds e) (hnd : (pr.neighborIds e).Nodup) :
    (assemble pr first s).rowSum (pr.index e) (pr.rowColumns e) = 0 := by
  obtain ⟨sys, h0, hA, _⟩ := assemble_row pr first s e he
  have hcols : (pr.index e :: pr.neighborIds e).Nodup := List.nodup_cons.mpr ⟨hself, hnd⟩
  have h1 := assembleCell_rowSum pr first sys e
    (fun en is cd => by rw [hclosed.1])
    (fun en x cd => by rw [hclosed.2.2]) hcols
  rw [h0] at h1
  rw [Problem.rowColumns, List.Nodup.dedup hcols, ← h1]
  unfold System.rowSum
  congr 1
  exact List.map_congr_left (fun j _ => hA j)

end AssembleClaims


/-! ## The scenarios -/

section Scenarios

/-- C2, witness: the face of cell 0 towards cell 1 in the 3-cell chain. -/
theorem C2_offdiagonal_entry_witness :
    (0 ∈ scenarioA.gridView.elements ∧
      scenarioA.gridView.intersections 0 = [⟨0, 0, none⟩] ++ ⟨0, 1, some 1⟩ :: [] ∧
      scenarioA.gridView.neighbor ⟨0, 1, some 1⟩ = true ∧
      scenarioA.outsideIndex ⟨0, 1, some 1⟩ ≠ scenarioA.index 0) ∧
    ((assemble scenarioA true System.zero).A (scenarioA.index 0)
        (scenarioA.outsideIndex ⟨0, 1, some 1⟩) =
        -(scenarioA.getFlux
            (entriesAfter scenarioA true (scenarioA.cellData (scenarioA.index 0))
              (sourceEntries scenarioA true 0) [⟨0, 0, none⟩])
            ⟨0, 1, some 1⟩ (scenarioA.cellData (scenarioA.index 0)) true).1 ∧
      ∀ (sys : System ℚ) (e' : Nat), scenarioA.index e' ≠ scenarioA.index 0 →
        ∀ j, (assembleCell scenarioA true sys e').A (scenarioA.index 0) j =
          sys.A (scenarioA.index 0) j) :=
  ⟨by decide,
    C2_offdiagonal_entry scenarioA true System.zero 0 [⟨0, 0, none⟩] [] ⟨0, 1, some 1⟩
      (by decide) (by decide) (by decide) (by decide) (by decide)⟩

/-- C2, counterexample: in the periodic grid of two cells, the face of cell 0 in
position 0 is shared with cell 1 and the flux evaluator returns `(1, 0)` for it,
but `Matrix[0][1]` is `-2`, the negated coefficient of the face in position 1. -/
theorem C2_counterexample_overwritten_entry :
    (⟨0, 0, some 1⟩ : Face) ∈ periodicPair.gridView.intersections 0 ∧
      periodicPair.gridView.neighbor ⟨0, 0, some 1⟩ = true ∧
      periodicPair.outsideIndex ⟨0, 0, some 1⟩ = 1 ∧
      (assemble periodicPair true System.zero).A 0 1 ≠
        -(periodicPair.getFlux (sourceEntries periodicPair true 0) ⟨0, 0, some 1⟩
            (periodicPair.cellData 0) true).1 := by
  refine ⟨by decide, by decide, by decide, ?_⟩
  simp [assemble, periodicPair, tableProblem, tableGrid, List.range, List.range.loop,
    assembleCell, fluxStep, setRhs, setEntry, System.zero, Problem.outsideIndex,
    List.enum, List.enumFrom, sourceEntries]

/-- C7: scenario A, the 3-cell chain with unit flux coefficient on the interior
faces and a closed boundary, assembles to the matrix
`[[1,-1,0],[-1,2,-1],[0,-1,1]]` and the right-hand side `[0,0,0]`. -/
theorem C7_scenarioA (first : Bool) (s : System ℚ) :
    (assemble scenarioA first s).matrix 3 = [[1, -1, 0], [-1, 2, -1], [0, -1, 1]] ∧
      (assemble scenarioA first s).rhs 3 = [0, 0, 0] := by
  constructor
  · simp [System.matrix, assemble, scenarioA, tableProblem, tableGrid, chainCells,
      List.range, List.range.loop, assembleCell, fluxStep, setRhs, setEntry, System.zero,
      Problem.outsideIndex, List.enum, List.enumFrom]
    norm_num
  · simp [System.rhs, assemble, scenarioA, tableProblem, tableGrid, chainCells,
      List.range, List.range.loop, assembleCell, fluxStep, setRhs, setEntry, System.zero,
      Problem.outsideIndex, List.enum, List.enumFrom]


/-- In scenario A with boundary data the three equations add up to `0 = 5`. -/
theorem scenarioA5_no_solution (first : Bool) (s : System ℚ) (p : Fin 3 → ℚ) :
    ¬ (assemble scenarioA5 first s).IsSolution 3 p := by
  intro h
  have h0 := h 0
  have h1 := h 1
  have h2 := h 2
  simp [Fin.sum_univ_three, assemble, scenarioA5, tableProblem, tableGrid, chainCells,
    List.range, List.range.loop, assembleCell, fluxStep, setRhs, setEntry, System.zero,
    Problem.outsideIndex, List.enum, List.enumFrom] at h0 h1 h2
  linarith

/-- C8 (as amended): in the 3-cell chain of scenario A, the boundary-flux pair
`(0, 5)` at the boundary face of cell 0 makes `assemble` produce the right-hand
side `[5,0,0]` with the matrix unchanged; the resulting linear system
`Matrix * p = RHS` has no solution. -/
theorem C8_scenarioA_boundary_data (first : Bool) (s : System ℚ) :
    (assemble scenarioA5 first s).rhs 3 = [5, 0, 0] ∧
      (assemble scenarioA5 first s).matrix 3 = (assemble scenarioA first s).matrix 3 ∧
      (assemble scenarioA5 first s).matrix 3 = [[1, -1, 0], [-1, 2, -1], [0, -1, 1]] ∧
      ∀ p : Fin 3 → ℚ, ¬ (assemble scenarioA5 first s).IsSolution 3 p := by
  refine ⟨?_, ?_, ?_, scenarioA5_no_solution first s⟩
  · simp [System.rhs, assemble, scenarioA5, tableProblem, tableGrid, chainCells,
      List.range, List.range.loop, assembleCell, fluxStep, setRhs, setEntry, System.zero,
      Problem.outsideIndex, List.enum, List.enumFrom]
  · simp [System.matrix, assemble, scenarioA5, scenarioA, tableProblem, tableGrid,
      chainCells, List.range, List.range.loop, assembleCell, fluxStep, setRhs, setEntry,
      System.zero, Problem.outsideIndex, List.enum, List.enumFrom]
  · simp [System.matrix, assemble, scenarioA5, tableProblem, tableGrid, chainCells,
      List.range, List.range.loop, assembleCell, fluxStep, setRhs, setEntry, System.zero,
      Problem.outsideIndex, List.enum, List.enumFrom]
    norm_num

/-- C8, counterexample: the linear system assembled for scenario A with the
boundary pair `(0, 5)` does not have exactly one solution. -/
theorem C8_counterexample_no_unique_solution :
    ¬ ∃! p : Fin 3 → ℚ, (assemble scenarioA5 true System.zero).IsSolution 3 p := by
  rintro ⟨p, hp, _⟩
  exact scenarioA5_no_solution true System.zero p hp

/-- C9: scenario B, a single cell without interior neighbour and with one
boundary face whose pair is `(2, 10)`, assembles to the matrix `[[2]]` and the
right-hand side `[10]`, and `[5]` is the one solution of `Matrix * p = RHS`. -/
theorem C9_scenarioB (first : Bool) (s : System ℚ) :
    (assemble scenarioB first s).matrix 1 = [[2]] ∧
      (assemble scenarioB first s).rhs 1 = [10] ∧
      ∀ p : Fin 1 → ℚ, (assemble scenarioB first s).IsSolution 1 p ↔ p = fun _ => 5 := by
  refine ⟨?_, ?_, fun p => ?_⟩
  · simp [System.matrix, assemble, scenarioB, tableProblem, tableGrid,
      List.range, List.range.loop, assembleCell, fluxStep, setRhs, setEntry, System.zero,
      Problem.outsideIndex, List.enum, List.enumFrom]
  · simp [System.rhs, assemble, scenarioB, tableProblem, tableGrid,
      List.range, List.range.loop, assembleCell, fluxStep, setRhs, setEntry, System.zero,
      Problem.outsideIndex, List.enum, List.enumFrom]
  · have hA : (assemble scenarioB first s).A 0 0 = 2 := by
      simp [assemble, scenarioB, tableProblem, tableGrid,
        List.range, List.range.loop, assembleCell, fluxStep, setRhs, setEntry, System.zero,
        Problem.outsideIndex, List.enum, List.enumFrom]
    have hf : (assemble scenarioB first s).f 0 = 10 := by
      simp [assemble, scenarioB, tableProblem, tableGrid,
        List.range, List.range.loop, assembleCell, fluxStep, setRhs, setEntry, System.zero,
        Problem.outsideIndex, List.enum, List.enumFrom]
    constructor
    · intro h
      have h0 := h 0
      simp only [Fin.sum_univ_one, Fin.val_zero, Fin.isValue] at h0
      rw [hA, hf] at h0
      funext i
      have hi : i = 0 := Subsingleton.elim _ _
      rw [hi]
      linarith
    · rintro rfl i
      have hi : i = 0 := Subsingleton.elim _ _
      rw [hi]
      simp only [Fin.sum_univ_one, Fin.val_zero, Fin.isValue]
      rw [hA, hf]
      norm_num

end Scenarios


/-! ## The update cycle, the written positions and the traversal steps -/

section StepClaims

variable {E F CD S : Type} [AddCommGroup S]

omit [AddCommGroup S] in
theorem mem_cellWrites (pr : Problem E F CD S) (e : E) (i j : Nat) :
    (i, j) ∈ cellWrites pr e ↔ i = pr.index e ∧ (j = pr.index e ∨ j ∈ pr.neighborIds e) := by
  unfold cellWrites Problem.neighborIds
  simp only [List.mem_append, List.mem_flatMap, List.mem_singleton, Prod.mk.injEq,
    List.mem_map, List.mem_filter]
  constructor
  · rintro (⟨is, his, hw⟩ | ⟨rfl, rfl⟩)
    · by_cases hnb : pr.gridView.neighbor is = true
      · rw [if_pos hnb] at hw
        simp only [List.mem_cons, Prod.mk.injEq, List.mem_singleton, List.not_mem_nil,
          or_false] at hw
        rcases hw with ⟨rfl, rfl⟩ | ⟨rfl, rfl⟩
        · exact ⟨rfl, Or.inl rfl⟩
        · exact ⟨rfl, Or.inr ⟨is, ⟨his, hnb⟩, rfl⟩⟩
      · rw [if_neg hnb] at hw
        simp only [List.mem_singleton, Prod.mk.injEq] at hw
        exact ⟨hw.1, Or.inl hw.2⟩
    · exact ⟨rfl, Or.inl rfl⟩
  · rintro ⟨rfl, rfl | ⟨is, ⟨his, hnb⟩, rfl⟩⟩
    · exact Or.inr ⟨rfl, rfl⟩
    · refine Or.inl ⟨is, his, ?_⟩
      rw [if_pos hnb]
      simp

/-- C12: for every grid, every matrix position written by `assemble` (the
diagonal `(I, I)` of each cell and `(I, J)` for each interior face of `I` with
neighbour `J`) belongs to the pattern built by `initializeMatrix` for the same
grid, so the access to it raises no `PatternViolation`; the traversal step of a
cell changes no matrix entry outside the positions listed for it. -/
theorem C12_writes_in_pattern (pr : Problem E F CD S) :
    (∃ P, initializeMatrix pr = .ok P ∧
      ∀ e ∈ pr.gridView.elements, ∀ w ∈ cellWrites pr e,
        w.2 ∈ P.cols w.1 ∧ P.checkEntry w.1 w.2 = .ok ()) ∧
      ∀ (first : Bool) (sys : System S) (e : E) (i j : Nat),
        (i, j) ∉ cellWrites pr e → (assembleCell pr first sys e).A i j = sys.A i j := by
  constructor
  · obtain ⟨P, hP, hrow, _⟩ := initializeMatrix_ok pr
    refine ⟨P, hP, ?_⟩
    rintro e he ⟨i, j⟩ hw
    have hmem : j ∈ P.cols i := by
      obtain ⟨rfl, hj⟩ := (mem_cellWrites pr e i j).mp hw
      rw [(hrow e he).1, List.mem_cons]
      exact hj
    exact ⟨hmem, if_pos hmem⟩
  · intro first sys e i j hw
    rw [mem_cellWrites, not_and, not_or] at hw
    by_cases hi : i = pr.index e
    · subst hi
      exact assembleCell_A_other_col pr first sys e j (hw rfl).1 (hw rfl).2
    · exact assembleCell_A_other_row pr first sys e i j hi

/-- C15: for every grid and every cell `I`, the traversal step of `assemble` for
cell `I` leaves every matrix row other than row `I` and every right-hand side
entry other than `RHS[I]` as it was before the step, and exactly one traversal
step has the row index `I`, so each row is written by exactly one step. -/
theorem C15_step_frame (pr : Problem E F CD S) (first : Bool) (e : E)
    (he : e ∈ pr.gridView.elements) :
    (∀ (sys : System S) (i : Nat), i ≠ pr.index e →
        (∀ j, (assembleCell pr first sys e).A i j = sys.A i j) ∧
          (assembleCell pr first sys e).f i = sys.f i) ∧
      (pr.gridView.elements.map pr.index).count (pr.index e) = 1 ∧
      ∀ e' ∈ pr.gridView.elements, e' ≠ e → ∀ (sys : System S),
        (∀ j, (assembleCell pr first sys e').A (pr.index e) j = sys.A (pr.index e) j) ∧
          (assembleCell pr first sys e').f (pr.index e) = sys.f (pr.index e) := by
  refine ⟨fun sys i hi => ⟨fun j => assembleCell_A_other_row pr first sys e i j hi,
    assembleCell_f_other pr first sys e i hi⟩, ?_, ?_⟩
  · exact List.count_eq_one_of_mem pr.index_inj (List.mem_map_of_mem _ he)
  · intro e' he' hne sys
    have hidx : pr.index e ≠ pr.index e' := fun hc =>
      hne (List.inj_on_of_nodup_map pr.index_inj he' he hc.symm)
    exact ⟨fun j => assembleCell_A_other_row pr first sys e' _ j hidx,
      assembleCell_f_other pr first sys e' _ hidx⟩

/-- C15, witness: cell 1 of the 3-cell chain. -/
theorem C15_step_frame_witness :
    1 ∈ scenarioA.gridView.elements ∧
    ((∀ (sys : System ℚ) (i : Nat), i ≠ scenarioA.index 1 →
        (∀ j, (assembleCell scenarioA true sys 1).A i j = sys.A i j) ∧
          (assembleCell scenarioA true sys 1).f i = sys.f i) ∧
      (scenarioA.gridView.elements.map scenarioA.index).count (scenarioA.index 1) = 1 ∧
      ∀ e' ∈ scenarioA.gridView.elements, e' ≠ 1 → ∀ (sys : System ℚ),
        (∀ j, (assembleCell scenarioA true sys e').A (scenarioA.index 1) j =
            sys.A (scenarioA.index 1) j) ∧
          (assembleCell scenarioA true sys e').f (scenarioA.index 1) =
            sys.f (scenarioA.index 1)) :=
  ⟨by decide, C15_step_frame scenarioA true 1 (by decide)⟩

end StepClaims

/-! ## The order of the inserted column indices -/

section OrderClaims

variable {E F CD S : Type}

/-- C13: for every grid and every cell `I`, the sequence of column indices that
`initializeMatrix` inserts into row `I` starts with the diagonal index `I` and
continues with the indices of the interior-face neighbours of `I` in the order
in which the faces of `I` are traversed. -/
theorem C13_row_insertion_order (pr : Problem E F CD S) (e : E)
    (he : e ∈ pr.gridView.elements) :
    ∃ P, initializeMatrix pr = .ok P ∧
      P.cols (pr.index e) =
        pr.index e ::
          ((pr.gridView.intersections e).filter pr.gridView.neighbor).map
            (fun is => pr.index (pr.gridView.outside is)) := by
  obtain ⟨P, hP, hrow, _⟩ := initializeMatrix_ok pr
  exact ⟨P, hP, (hrow e he).1⟩

/-- C13, witness: cell 1 of the 3-cell chain, whose row receives `1, 0, 2`. -/
theorem C13_row_insertion_order_witness :
    (1 ∈ scenarioA.gridView.elements ∧
      (initializeMatrix scenarioA).map (fun P => P.cols 1) = .ok [1, 0, 2]) ∧
    ∃ P, initializeMatrix scenarioA = .ok P ∧
      P.cols (scenarioA.index 1) =
        scenarioA.index 1 ::
          ((scenarioA.gridView.intersections 1).filter scenarioA.gridView.neighbor).map
            (fun is => scenarioA.index (scenarioA.gridView.outside is)) :=
  ⟨⟨by decide, rfl⟩, C13_row_insertion_order scenarioA 1 (by decide)⟩

end OrderClaims


/-! ## The roles of the two components and the accumulator -/

section AccumulatorLemmas

variable {E F CD S : Type} [Zero S] [Add S] [Sub S] [Neg S]

omit [Zero S] in
theorem fluxStep_congr (pr : Problem E F CD S) (first : Bool) (I : Nat) (cd : CD)
    (hO : pr.OverwritesMatrixCoeff) (st st' : Entries S × System S) (is : F)
    (h1 : st.1.2 = st'.1.2) (h2 : st.2 = st'.2) :
    fluxStep pr first I cd st is = fluxStep pr first I cd st' is := by
  unfold fluxStep
  rw [hO.1 st.1 st'.1 is cd first h1, hO.2.1 st.1 st'.1 is cd first h1, h2]

omit [Zero S] in
theorem faceLoop_congr (pr : Problem E F CD S) (first : Bool) (I : Nat) (cd : CD)
    (hO : pr.OverwritesMatrixCoeff) (fs : List F) (st st' : Entries S × System S)
    (h1 : st.1.2 = st'.1.2) (h2 : st.2 = st'.2) :
    (fs.foldl (fluxStep pr first I cd) st).1.2 = (fs.foldl (fluxStep pr first I cd) st').1.2 ∧
      (fs.foldl (fluxStep pr first I cd) st).2 = (fs.foldl (fluxStep pr first I cd) st').2 := by
  cases fs with
  | nil => exact ⟨h1, h2⟩
  | cons is rest =>
    rw [List.foldl_cons, List.foldl_cons, fluxStep_congr pr first I cd hO st st' is h1 h2]
    exact ⟨rfl, rfl⟩

theorem assembleCell_source_irrelevant (pr : Problem E F CD S) (first : Bool)
    (g : Entries S → E → CD → Bool → Entries S)
    (hg : ∀ en e cd b, (g en e cd b).2 = (pr.getSource en e cd b).2)
    (hO : pr.OverwritesMatrixCoeff) (sys : System S) (e : E) :
    assembleCell { pr with getSource := g } first sys e = assembleCell pr first sys e := by
  have h := faceLoop_congr pr first (pr.index e) (pr.cellData (pr.index e)) hO
    (pr.gridView.intersections e)
    (g (0, 0) e (pr.cellData (pr.index e)) first,
      ⟨sys.A, setRhs sys.f (pr.index e) (g (0, 0) e (pr.cellData (pr.index e)) first).2⟩)
    (pr.getSource (0, 0) e (pr.cellData (pr.index e)) first,
      ⟨sys.A, setRhs sys.f (pr.index e)
        (pr.getSource (0, 0) e (pr.cellData (pr.index e)) first).2⟩)
    (hg _ _ _ _) (by rw [hg])
  show storageStep pr first e ((pr.gridView.intersections e).foldl
      (fluxStep pr first (pr.index e) (pr.cellData (pr.index e))) _) =
    storageStep pr first e ((pr.gridView.intersections e).foldl
      (fluxStep pr first (pr.index e) (pr.cellData (pr.index e))) _)
  unfold storageStep
  simp only []
  rw [hO.2.2 _ _ e (pr.cellData (pr.index e)) first h.1, h.2]

end AccumulatorLemmas

section AccumulatorClaims

variable {E F CD S : Type} [AddCommGroup S]

/-- C16 (as amended): the traversal step of a cell is the source term, the
face loop and the storage term.  For the flux, boundary-flux and storage
evaluators component 0 of the returned pair goes to a matrix entry and
component 1 to the right-hand side.  Of the pair of the source evaluator only
component 1 is used, it is assigned to `RHS[I]`; the source term leaves the
matrix unchanged, and the assembled system does not depend on component 0 of
the source evaluator's result whenever the later evaluators overwrite
component 0 of the accumulator. -/
theorem C16_component_roles (pr : Problem E F CD S) (first : Bool) :
    (∀ (sys : System S) (e : E), assembleCell pr first sys e =
      storageStep pr first e ((pr.gridView.intersections e).foldl
        (fluxStep pr first (pr.index e) (pr.cellData (pr.index e)))
        (sourceStep pr first e sys))) ∧
    (∀ (sys : System S) (e : E), (sourceStep pr first e sys).2.A = sys.A ∧
      (sourceStep pr first e sys).2.f (pr.index e) =
        (pr.getSource (0, 0) e (pr.cellData (pr.index e)) first).2) ∧
    (∀ (I : Nat) (cd : CD) (st : Entries S × System S) (is : F),
      pr.gridView.neighbor is = true →
        (fluxStep pr first I cd st is).2.A I (pr.outsideIndex is) =
            -(pr.getFlux st.1 is cd first).1 ∧
          (fluxStep pr first I cd st is).2.f I =
            st.2.f I - (pr.getFlux st.1 is cd first).2) ∧
    (∀ (I : Nat) (cd : CD) (st : Entries S × System S) (is : F),
      pr.gridView.neighbor is = false →
        (fluxStep pr first I cd st is).2.A I I =
            st.2.A I I + (pr.getFluxOnBoundary st.1 is cd first).1 ∧
          (fluxStep pr first I cd st is).2.f I =
            st.2.f I + (pr.getFluxOnBoundary st.1 is cd first).2) ∧
    (∀ (e : E) (st : Entries S × System S),
      (storageStep pr first e st).A (pr.index e) (pr.index e) =
          st.2.A (pr.index e) (pr.index e) +
            (pr.getStorage st.1 e (pr.cellData (pr.index e)) first).1 ∧
        (storageStep pr first e st).f (pr.index e) =
          st.2.f (pr.index e) +
            (pr.getStorage st.1 e (pr.cellData (pr.index e)) first).2) ∧
    (∀ (g : Entries S → E → CD → Bool → Entries S) (s : System S),
      (∀ en e cd b, (g en e cd b).2 = (pr.getSource en e cd b).2) →
        pr.OverwritesMatrixCoeff →
          assemble { pr with getSource := g } first s = assemble pr first s) := by
  refine ⟨fun _ _ => rfl, fun sys e => ⟨rfl, ?_⟩, ?_, ?_, ?_, ?_⟩
  · exact setRhs_same _ _ _
  · intro I cd st is h
    refine ⟨fluxStep_A_off pr first I cd st is h, ?_⟩
    unfold fluxStep
    rw [if_pos h]
    exact setRhs_same _ _ _
  · intro I cd st is h
    unfold fluxStep
    rw [if_neg (by simp [h])]
    exact ⟨setEntry_same _ _ _ _, setRhs_same _ _ _⟩
  · intro e st
    exact ⟨setEntry_same _ _ _ _, setRhs_same _ _ _⟩
  · intro g s hg hO
    have hcell : assembleCell { pr with getSource := g } first = assembleCell pr first := by
      funext sys e
      exact assembleCell_source_irrelevant pr first g hg hO sys e
    show List.foldl (assembleCell { pr with getSource := g } first) System.zero
      pr.gridView.elements = _
    rw [hcell]
    rfl

/-- C16, counterexample: in the 3-cell chain with source pair `(x, 0)` the
assembled matrix is the same for every `x`; it does not depend on component 0
of the source evaluator's result. -/
theorem C16_counterexample_source_coefficient_unused :
    ¬ ∃ x : ℚ, (assemble (sourceChain x) true System.zero).matrix 3 ≠
      (assemble (sourceChain 0) true System.zero).matrix 3 := by
  rintro ⟨x, hx⟩
  apply hx
  simp [System.matrix, assemble, sourceChain, tableProblem, tableGrid, chainCells,
    List.range, List.range.loop, assembleCell, fluxStep, setRhs, setEntry, System.zero,
    Problem.outsideIndex, List.enum, List.enumFrom]

theorem specFaceLoop_eq (pr : Problem E F CD S) (first : Bool) (I : Nat) (cd : CD)
    (hO : pr.Overwrites) (fs : List F) (en : Entries S) (sys : System S) :
    (fs.foldl (fluxStep pr first I cd) (en, sys)).2 =
      fs.foldl (specFluxStep pr pr.evaluators first I cd) sys := by
  induction fs generalizing en sys with
  | nil => rfl
  | cons is rest ih =>
    rw [List.foldl_cons, List.foldl_cons,
      ← ih (fluxStep pr first I cd (en, sys) is).1 (specFluxStep pr pr.evaluators first I cd sys is)]
    congr 1
    unfold fluxStep specFluxStep Problem.evaluators
    by_cases h : pr.gridView.neighbor is = true
    · simp only [h, if_true]
      rw [hO.2.1 en (0, 0)]
    · simp only [h, Bool.false_eq_true, if_false]
      rw [hO.2.2.1 en (0, 0)]

theorem specAssembleCell_eq (pr : Problem E F CD S) (first : Bool) (hO : pr.Overwrites)
    (sys : System S) (e : E) :
    assembleCell pr first sys e = specAssembleCell pr pr.evaluators first sys e := by
  unfold assembleCell specAssembleCell
  simp only []
  rw [specFaceLoop_eq pr first _ _ hO, hO.2.2.2 _ (0, 0)]
  rfl

/-- C20: when every evaluator invocation overwrites both components of the
shared accumulator, the matrix and the right-hand side produced by `assemble`
with in-place evaluators are those of the specification's model in which each
evaluator returns a fresh pair; the values `assemble` uses after a call are the
components of the accumulator the call leaves, so a component an evaluator
leaves untouched is the value left by the previous evaluator call of the cell. -/
theorem C20_accumulator_refinement (pr : Problem E F CD S) (first : Bool)
    (s : System S) (hO : pr.Overwrites) :
    assemble pr first s = specAssemble pr pr.evaluators first ∧
    (∀ (I : Nat) (cd : CD) (en : Entries S) (sys : System S) (fs : List F),
      (fs.foldl (fluxStep pr first I cd) (en, sys)).1 = entriesAfter pr first cd en fs) ∧
    (∀ (I : Nat) (cd : CD) (st : Entries S × System S) (is : F),
      pr.gridView.neighbor is = true →
        ((pr.getFlux st.1 is cd first).1 = st.1.1 →
          (fluxStep pr first I cd st is).2.A I (pr.outsideIndex is) = -st.1.1) ∧
        ((pr.getFlux st.1 is cd first).2 = st.1.2 →
          (fluxStep pr first I cd st is).2.f I = st.2.f I - st.1.2)) := by
  refine ⟨?_, fun I cd en sys fs => faceLoop_fst pr first I cd fs (en, sys), ?_⟩
  · have hcell : assembleCell pr first = specAssembleCell pr pr.evaluators first := by
      funext sys e
      exact specAssembleCell_eq pr first hO sys e
    unfold assemble specAssemble
    rw [hcell]
  · intro I cd st is h
    constructor
    · intro h1
      rw [fluxStep_A_off pr first I cd st is h, h1]
    · intro h2
      unfold fluxStep
      rw [if_pos h]
      show setRhs st.2.f I (st.2.f I - (pr.getFlux st.1 is cd first).2) I = _
      rw [setRhs_same, h2]

end AccumulatorClaims


/-! ## Lemmas on runs with fallible evaluators -/

section RunLemmas

variable {E F S Err α β : Type}

theorem Run.done_follows (a : α) : (Run.done a : Run E F S Err α).Follows [] :=
  ⟨List.prefix_refl _, fun _ _ => rfl⟩

theorem Run.invoke_follows (c : Call E F) (r : Except Err (Entries S)) :
    (Run.invoke c r).Follows [c] :=
  ⟨List.prefix_refl _, fun _ _ => rfl⟩

theorem Run.andThen_follows (r : Run E F S Err α) (k : α → Run E F S Err β)
    (l1 l2 : List (Call E F)) (hr : r.Follows l1) (hk : ∀ a, (k a).Follows l2) :
    (r.andThen k).Follows (l1 ++ l2) := by
  unfold Run.andThen
  cases hres : r.2 with
  | error err0 =>
    exact ⟨hr.1.trans (List.prefix_append _ _), fun a h => by cases h⟩
  | ok a =>
    have h1 : r.1.calls = l1 := hr.2 a hres
    have hcalls : CallLog.calls (r.1 ++ (k a).1) = l1 ++ (k a).1.calls := by
      rw [← h1]
      exact List.map_append _ _ _
    refine ⟨?_, fun b h => ?_⟩
    · show CallLog.calls (r.1 ++ (k a).1) <+: _
      rw [hcalls]
      exact (List.prefix_append_right_inj l1).mpr (hk a).1
    · show CallLog.calls (r.1 ++ (k a).1) = _
      rw [hcalls, (hk a).2 b h]


theorem Run.andThen_ok (r : Run E F S Err α) (k : α → Run E F S Err β) (a : α)
    (h : r.2 = .ok a) : r.andThen k = (r.1 ++ (k a).1, (k a).2) := by
  unfold Run.andThen
  rw [h]

end RunLemmas

section FallibleLemmas

variable {E F CD S Err : Type} [AddCommGroup S]
variable (pr : Problem E F CD S) (ev : FallibleEvaluators E F CD S Err) (first : Bool)

/-- The invocation made for an intersection of cell `e`. -/
theorem fluxStepE_follows (e : E) (st : Entries S × System S) (is : F) :
    (fluxStepE pr ev first e st is).Follows
      [if pr.gridView.neighbor is then Call.getFlux e is else Call.getFluxOnBoundary e is] := by
  unfold fluxStepE
  by_cases h : pr.gridView.neighbor is = true
  · simp only [h, if_true]
    exact Run.andThen_follows _ _ [_] [] (Run.invoke_follows _ _) (fun _ => Run.done_follows _)
  · simp only [h, Bool.false_eq_true, if_false]
    exact Run.andThen_follows _ _ [_] [] (Run.invoke_follows _ _) (fun _ => Run.done_follows _)

theorem faceLoopE_follows (e : E) (fs : List F) (st : Entries S × System S) :
    (faceLoopE pr ev first e fs st).Follows
      (fs.map fun is =>
        if pr.gridView.neighbor is then Call.getFlux e is else Call.getFluxOnBoundary e is) := by
  induction fs generalizing st with
  | nil => exact Run.done_follows _
  | cons is rest ih =>
    exact Run.andThen_follows _ _ [_] _ (fluxStepE_follows pr ev first e st is) ih

theorem assembleCellE_follows (sys : System S) (e : E) :
    (assembleCellE pr ev first sys e).Follows (cellCalls pr e) := by
  have h : (assembleCellE pr ev first sys e).Follows
      ([Call.getSource e] ++
        (((pr.gridView.intersections e).map fun is =>
            if pr.gridView.neighbor is then Call.getFlux e is
            else Call.getFluxOnBoundary e is)
          ++ ([Call.getStorage e] ++ []))) :=
    Run.andThen_follows _ _ _ _ (Run.invoke_follows _ _)
      (fun _ => Run.andThen_follows _ _ _ _ (faceLoopE_follows pr ev first e _ _)
        (fun _ => Run.andThen_follows _ _ _ _ (Run.invoke_follows _ _)
          (fun _ => Run.done_follows _)))
  simpa [cellCalls] using h

theorem cellLoopE_follows (l : List E) (sys : System S) :
    (cellLoopE pr ev first l sys).Follows (l.flatMap (cellCalls pr)) := by
  induction l generalizing sys with
  | nil => exact Run.done_follows _
  | cons e rest ih =>
    rw [List.flatMap_cons]
    exact Run.andThen_follows _ _ _ _ (assembleCellE_follows pr ev first sys e) ih

theorem fluxStepE_total (e : E) (st : Entries S × System S) (is : F) :
    (fluxStepE pr (pr.totalEvaluators Err) first e st is).2 =
      .ok (fluxStep pr first (pr.index e) (pr.cellData (pr.index e)) st is) := by
  unfold fluxStepE fluxStep Problem.totalEvaluators
  by_cases h : pr.gridView.neighbor is = true
  · simp only [h, if_true]
    rfl
  · simp only [h, Bool.false_eq_true, if_false]
    rfl

theorem faceLoopE_total (e : E) (fs : List F) (st : Entries S × System S) :
    (faceLoopE pr (pr.totalEvaluators Err) first e fs st).2 =
      .ok (fs.foldl (fluxStep pr first (pr.index e) (pr.cellData (pr.index e))) st) := by
  induction fs generalizing st with
  | nil => rfl
  | cons is rest ih =>
    rw [faceLoopE, Run.andThen_ok _ _ _ (fluxStepE_total pr first e st is), List.foldl_cons]
    exact ih _

theorem assembleCellE_total (sys : System S) (e : E) :
    (assembleCellE pr (pr.totalEvaluators Err) first sys e).2 =
      .ok (assembleCell pr first sys e) := by
  unfold assembleCellE
  simp only []
  rw [Run.andThen_ok _ _ (pr.getSource (0, 0) e (pr.cellData (pr.index e)) first) rfl]
  simp only []
  rw [Run.andThen_ok _ _ _ (faceLoopE_total pr first e _ _)]
  rfl

theorem cellLoopE_total (l : List E) (sys : System S) :
    (cellLoopE pr (pr.totalEvaluators Err) first l sys).2 =
      .ok (l.foldl (assembleCell pr first) sys) := by
  induction l generalizing sys with
  | nil => rfl
  | cons e rest ih =>
    rw [cellLoopE, Run.andThen_ok _ _ _ (assembleCellE_total pr first sys e), List.foldl_cons]
    exact ih _

omit [AddCommGroup S] in
theorem fluxCalls_faces (e : E) (fs : List F) :
    fluxCalls (fs.map fun is =>
        if pr.gridView.neighbor is then Call.getFlux e is else Call.getFluxOnBoundary e is) =
      (fs.filter pr.gridView.neighbor).map (fun is => (e, is)) := by
  induction fs with
  | nil => rfl
  | cons is rest ih =>
    unfold fluxCalls at ih ⊢
    by_cases h : pr.gridView.neighbor is = true
    · rw [List.map_cons, List.filter_cons_of_pos h, List.map_cons, ← ih]
      simp [h]
    · rw [List.map_cons, List.filter_cons_of_neg h, ← ih]
      simp [h]

omit [AddCommGroup S] in
theorem fluxCalls_cellCalls (e : E) :
    fluxCalls (cellCalls pr e) =
      ((pr.gridView.intersections e).filter pr.gridView.neighbor).map (fun is => (e, is)) := by
  rw [← fluxCalls_faces]
  unfold cellCalls fluxCalls
  simp [List.filterMap_append]

omit [AddCommGroup S] in
theorem fluxCalls_flatMap (l : List E) :
    fluxCalls (l.flatMap (cellCalls pr)) =
      l.flatMap fun e =>
        ((pr.gridView.intersections e).filter pr.gridView.neighbor).map (fun is => (e, is)) := by
  induction l with
  | nil => rfl
  | cons e rest ih =>
    rw [List.flatMap_cons, List.flatMap_cons, ← ih, ← fluxCalls_cellCalls]
    exact List.filterMap_append _ _ _

end FallibleLemmas


/-! ## The evaluator invocations of `assemble` -/

section InvocationClaims

variable {E F CD S Err : Type} [AddCommGroup S]

theorem scenarioA_symmetric : scenarioA.Symmetric := by
  unfold Problem.Symmetric
  decide

/-- C14 (as amended): for every grid with symmetric adjacency, `assemble`
invokes the flux evaluator once for every interior intersection of every cell,
in traversal order, so an interior face shared by two cells is processed from
both sides: once in the traversal step of the cell and once more, through the
intersection that leads back, in the traversal step of its neighbour. -/
theorem C14_flux_invocations (pr : Problem E F CD S) (first : Bool) (s : System S)
    (Err : Type) (hsym : pr.Symmetric) :
    (assembleE pr (pr.totalEvaluators Err) first s).2 = .ok (assemble pr first s) ∧
    fluxCalls (assembleE pr (pr.totalEvaluators Err) first s).1.calls =
      (pr.gridView.elements.flatMap fun e =>
        ((pr.gridView.intersections e).filter pr.gridView.neighbor).map (fun is => (e, is))) ∧
    ∀ e ∈ pr.gridView.elements, ∀ is ∈ pr.gridView.intersections e,
      pr.gridView.neighbor is = true →
        (e, is) ∈ fluxCalls (assembleE pr (pr.totalEvaluators Err) first s).1.calls ∧
        ∃ is' ∈ pr.gridView.intersections (pr.gridView.outside is),
          pr.gridView.neighbor is' = true ∧ pr.outsideIndex is' = pr.index e ∧
          (pr.gridView.outside is, is') ∈
            fluxCalls (assembleE pr (pr.totalEvaluators Err) first s).1.calls := by
  have hok : (assembleE pr (pr.totalEvaluators Err) first s).2 = .ok (assemble pr first s) :=
    cellLoopE_total pr first pr.gridView.elements System.zero
  have hcalls : fluxCalls (assembleE pr (pr.totalEvaluators Err) first s).1.calls =
      (pr.gridView.elements.flatMap fun e =>
        ((pr.gridView.intersections e).filter pr.gridView.neighbor).map
          (fun is => (e, is))) := by
    have hF : (assembleE pr (pr.totalEvaluators Err) first s).Follows (traversalCalls pr) :=
      cellLoopE_follows pr (pr.totalEvaluators Err) first pr.gridView.elements System.zero
    rw [hF.2 _ hok]
    exact fluxCalls_flatMap pr _
  have hmem : ∀ e ∈ pr.gridView.elements, ∀ is ∈ pr.gridView.intersections e,
      pr.gridView.neighbor is = true →
        (e, is) ∈ fluxCalls (assembleE pr (pr.totalEvaluators Err) first s).1.calls := by
    intro e he is his hnb
    rw [hcalls, List.mem_flatMap]
    exact ⟨e, he, List.mem_map_of_mem _ (List.mem_filter.mpr ⟨his, hnb⟩)⟩
  refine ⟨hok, hcalls, fun e he is his hnb => ⟨hmem e he is his hnb, ?_⟩⟩
  obtain ⟨hout, is', his', hnb', hback⟩ := hsym e he is his hnb
  exact ⟨is', his', hnb', hback, hmem _ hout is' his' hnb'⟩

/-- C14, witness: the 3-cell chain, whose adjacency is symmetric. -/
theorem C14_flux_invocations_witness :
    scenarioA.Symmetric ∧
    ((assembleE scenarioA (scenarioA.totalEvaluators Unit) true System.zero).2 =
        .ok (assemble scenarioA true System.zero) ∧
    fluxCalls (assembleE scenarioA (scenarioA.totalEvaluators Unit) true System.zero).1.calls =
      (scenarioA.gridView.elements.flatMap fun e =>
        ((scenarioA.gridView.intersections e).filter scenarioA.gridView.neighbor).map
          (fun is => (e, is))) ∧
    ∀ e ∈ scenarioA.gridView.elements, ∀ is ∈ scenarioA.gridView.intersections e,
      scenarioA.gridView.neighbor is = true →
        (e, is) ∈ fluxCalls
          (assembleE scenarioA (scenarioA.totalEvaluators Unit) true System.zero).1.calls ∧
        ∃ is' ∈ scenarioA.gridView.intersections (scenarioA.gridView.outside is),
          scenarioA.gridView.neighbor is' = true ∧
          scenarioA.outsideIndex is' = scenarioA.index e ∧
          (scenarioA.gridView.outside is, is') ∈ fluxCalls
            (assembleE scenarioA (scenarioA.totalEvaluators Unit) true System.zero).1.calls) :=
  ⟨scenarioA_symmetric,
    C14_flux_invocations scenarioA true System.zero Unit scenarioA_symmetric⟩

/-- C14, counterexample: the 3-cell chain has symmetric adjacency and two
interior faces, and `assemble` invokes the flux evaluator four times; the face
between cells 0 and 1 is processed in the step of cell 0 and again, from the
other side, in the step of cell 1. -/
theorem C14_counterexample_face_processed_twice :
    scenarioA.Symmetric ∧
    fluxCalls (assembleE scenarioA (scenarioA.totalEvaluators Unit) true System.zero).1.calls =
      [(0, ⟨0, 1, some 1⟩), (1, ⟨1, 0, some 0⟩), (1, ⟨1, 1, some 2⟩), (2, ⟨2, 0, some 1⟩)] ∧
    scenarioA.outsideIndex ⟨0, 1, some 1⟩ = 1 ∧ scenarioA.outsideIndex ⟨1, 0, some 0⟩ = 0 :=
  ⟨scenarioA_symmetric, by decide, by decide, by decide⟩

end InvocationClaims


/-! ## Off-diagonal entries, symmetry and repeated neighbours -/

section SymmetryLemmas

variable {E F CD S : Type} [Zero S] [Add S] [Sub S] [Neg S]
variable (pr : Problem E F CD S) (first : Bool)

omit [Zero S] [Add S] [Sub S] [Neg S] in
theorem mem_zip_fluxEntries (cd : CD) (pre post : List F) (is : F) (en : Entries S) :
    (is, faceEntries pr first cd (entriesAfter pr first cd en pre) is) ∈
      (pre ++ is :: post).zip (fluxEntries pr first cd en (pre ++ is :: post)) := by
  induction pre generalizing en with
  | nil =>
    rw [List.nil_append, zip_fluxEntries_cons]
    exact List.mem_cons_self _ _
  | cons x rest ih =>
    rw [List.cons_append, zip_fluxEntries_cons]
    exact List.mem_cons_of_mem _ (ih _)

omit [Zero S] [Add S] [Sub S] [Neg S] in
theorem zip_fluxEntries_fst (cd : CD) (fs : List F) (en : Entries S) :
    (fs.zip (fluxEntries pr first cd en fs)).map Prod.fst = fs := by
  induction fs generalizing en with
  | nil => rfl
  | cons x rest ih =>
    rw [zip_fluxEntries_cons, List.map_cons, ih]

theorem assemble_offdiag_zero (s : System S) (i j : Nat) (hij : j ≠ i)
    (h : ∀ e ∈ pr.gridView.elements, pr.index e = i → j ∉ pr.neighborIds e) :
    (assemble pr first s).A i j = 0 := by
  by_cases hi : ∃ e ∈ pr.gridView.elements, pr.index e = i
  · obtain ⟨e, he, rfl⟩ := hi
    obtain ⟨sys, h0, hA, _⟩ := assemble_row pr first s e he
    rw [hA, assembleCell_A_other_col pr first sys e j hij (h e he rfl), h0]
  · have hne : ∀ e ∈ pr.gridView.elements, pr.index e ≠ i := fun e he hc => hi ⟨e, he, hc⟩
    exact (cellLoop_frame pr first pr.gridView.elements System.zero i hne).1 j

theorem assemble_offdiag_neighbor (s : System S) (e : E) (he : e ∈ pr.gridView.elements)
    (hnd : (pr.neighborIds e).Nodup) (j : Nat) (hj : j ∈ pr.neighborIds e)
    (hne : j ≠ pr.index e) :
    ∃ p ∈ cellFluxEntries pr first e, pr.gridView.neighbor p.1 = true ∧
      pr.outsideIndex p.1 = j ∧ (assemble pr first s).A (pr.index e) j = -p.2.1 := by
  obtain ⟨is, his, rfl⟩ := List.mem_map.mp hj
  obtain ⟨his, hnb⟩ := List.mem_filter.mp his
  obtain ⟨pre, post, hfs⟩ := List.append_of_mem his
  have hpost : ∀ x ∈ post, pr.gridView.neighbor x = true →
      pr.outsideIndex x ≠ pr.outsideIndex is := by
    intro x hx hxnb hc
    unfold Problem.neighborIds at hnd
    rw [hfs, List.filter_append, List.map_append, List.filter_cons_of_pos hnb,
      List.map_cons] at hnd
    have h2 := (List.nodup_cons.mp (List.nodup_append.mp hnd).2.1).1
    exact h2 (hc ▸ List.mem_map_of_mem _ (List.mem_filter.mpr ⟨hx, hxnb⟩))
  obtain ⟨sys, _, hA, _⟩ := assemble_row pr first s e he
  refine ⟨(is, faceEntries pr first (pr.cellData (pr.index e))
    (entriesAfter pr first (pr.cellData (pr.index e)) (sourceEntries pr first e) pre) is),
    ?_, hnb, rfl, ?_⟩
  · unfold cellFluxEntries
    rw [hfs]
    exact mem_zip_fluxEntries pr first _ pre post is _
  · rw [hA, assembleCell_A_off pr first sys e pre post is hfs hnb hne hpost]
    simp [faceEntries, hnb]

omit [Zero S] [Add S] [Sub S] [Neg S] in
theorem symmetric_neighbor_back (hsym : pr.Symmetric) (e : E)
    (he : e ∈ pr.gridView.elements) (j : Nat) (hj : j ∈ pr.neighborIds e) :
    ∃ e' ∈ pr.gridView.elements, pr.index e' = j ∧ pr.index e ∈ pr.neighborIds e' := by
  obtain ⟨is, his, rfl⟩ := List.mem_map.mp hj
  obtain ⟨his, hnb⟩ := List.mem_filter.mp his
  obtain ⟨hout, is', his', hnb', hback⟩ := hsym e he is his hnb
  refine ⟨pr.gridView.outside is, hout, rfl, ?_⟩
  rw [← hback]
  exact List.mem_map_of_mem _ (List.mem_filter.mpr ⟨his', hnb'⟩)

end SymmetryLemmas

section SymmetryExact

variable {E F CD S : Type} [AddCommGroup S]
variable (pr : Problem E F CD S) (first : Bool)

theorem faceLoop_rowSum_shadowed (I : Nat) (cd : CD) (fs : List F)
    (st : Entries S × System S)
    (hI : I ∉ (fs.filter pr.gridView.neighbor).map pr.outsideIndex) :
    (fs.foldl (fluxStep pr first I cd) st).2.rowSum I
        (I :: ((fs.filter pr.gridView.neighbor).map pr.outsideIndex).dedup) =
      st.2.A I I + boundaryCoeffSum pr (fs.zip (fluxEntries pr first cd st.1 fs))
        + shadowedCoeffSum pr (fs.zip (fluxEntries pr first cd st.1 fs)) := by
  induction fs generalizing st with
  | nil => simp [System.rowSum, boundaryCoeffSum, shadowedCoeffSum, fluxEntries]
  | cons is rest ih =>
    rw [zip_fluxEntries_cons, shadowedCoeffSum, zip_fluxEntries_fst, List.foldl_cons]
    by_cases h : pr.gridView.neighbor is = true
    · rw [List.filter_cons_of_pos h, List.map_cons] at hI ⊢
      have hJ : pr.outsideIndex is ≠ I := fun hc => hI (hc ▸ List.mem_cons_self _ _)
      have hI2 : I ∉ (rest.filter pr.gridView.neighbor).map pr.outsideIndex :=
        fun hc => hI (List.mem_cons_of_mem _ hc)
      have h1 := ih (fluxStep pr first I cd st is) hI2
      rw [fluxStep_A_diag _ _ _ _ _ _ (fun _ => hJ), fluxStep_fst] at h1
      have hb : boundaryCoeffSum pr
          ((is, faceEntries pr first cd st.1 is) ::
            rest.zip (fluxEntries pr first cd (faceEntries pr first cd st.1 is) rest)) =
          boundaryCoeffSum pr
            (rest.zip (fluxEntries pr first cd (faceEntries pr first cd st.1 is) rest)) := by
        simp [boundaryCoeffSum, List.filter_cons, h]
      rw [hb]
      by_cases hmem : pr.outsideIndex is ∈
          (rest.filter pr.gridView.neighbor).map pr.outsideIndex
      · rw [List.dedup_cons_of_mem hmem, h1, if_pos ⟨h, hmem⟩]
        abel
      · rw [List.dedup_cons_of_not_mem hmem, if_neg (fun hc => hmem hc.2)]
        have h2 := faceLoop_A_other_col pr first I cd rest (fluxStep pr first I cd st is)
          (pr.outsideIndex is) hJ (not_mem_neighbors pr rest _ hmem)
        rw [fluxStep_A_off _ _ _ _ _ _ h] at h2
        have h3 : faceEntries pr first cd st.1 is = pr.getFlux st.1 is cd first := by
          simp [faceEntries, h]
        rw [h3] at h1 ⊢
        simp only [System.rowSum, List.map_cons, List.sum_cons] at h1 ⊢
        rw [h2, add_left_comm, h1]
        abel
    · rw [List.filter_cons_of_neg h] at hI ⊢
      have h1 := ih (fluxStep pr first I cd st is) hI
      rw [fluxStep_A_diag _ _ _ _ _ _ (fun hc => absurd hc h), fluxStep_fst] at h1
      have hb : boundaryCoeffSum pr
          ((is, faceEntries pr first cd st.1 is) ::
            rest.zip (fluxEntries pr first cd (faceEntries pr first cd st.1 is) rest)) =
          (faceEntries pr first cd st.1 is).1 + boundaryCoeffSum pr
            (rest.zip (fluxEntries pr first cd (faceEntries pr first cd st.1 is) rest)) := by
        simp [boundaryCoeffSum, List.filter_cons, h]
      rw [hb, h1, if_neg (fun hc => h hc.1)]
      abel

theorem assemble_rowSum_shadowed (s : System S) (e : E) (he : e ∈ pr.gridView.elements)
    (hself : pr.index e ∉ pr.neighborIds e) :
    (assemble pr first s).rowSum (pr.index e) (pr.rowColumns e) =
      (storageEntries pr first e).1 + boundaryCoeffSum pr (cellFluxEntries pr first e)
        + shadowedCoeffSum pr (cellFluxEntries pr first e) := by
  obtain ⟨sys, h0, hA, _⟩ := assemble_row pr first s e he
  have h1 := faceLoop_rowSum_shadowed pr first (pr.index e) (pr.cellData (pr.index e))
    (pr.gridView.intersections e)
    (pr.getSource (0, 0) e (pr.cellData (pr.index e)) first,
      ⟨sys.A, setRhs sys.f (pr.index e)
        (pr.getSource (0, 0) e (pr.cellData (pr.index e)) first).2⟩) hself
  have hcols : pr.rowColumns e = pr.index e :: (pr.neighborIds e).dedup :=
    List.dedup_cons_of_not_mem hself
  have hrest : ∀ j ∈ (pr.neighborIds e).dedup,
      (assemble pr first s).A (pr.index e) j =
        ((pr.gridView.intersections e).foldl
          (fluxStep pr first (pr.index e) (pr.cellData (pr.index e)))
          (pr.getSource (0, 0) e (pr.cellData (pr.index e)) first,
            ⟨sys.A, setRhs sys.f (pr.index e)
              (pr.getSource (0, 0) e (pr.cellData (pr.index e)) first).2⟩)).2.A
          (pr.index e) j := by
    intro j hj
    have hne : j ≠ pr.index e := fun hc => hself (hc ▸ List.mem_dedup.mp hj)
    rw [hA]
    unfold assembleCell
    simp only []
    rw [setEntry_other _ _ _ _ _ _ (Or.inr hne)]
  have hdiag : (assemble pr first s).A (pr.index e) (pr.index e) =
      ((pr.gridView.intersections e).foldl
          (fluxStep pr first (pr.index e) (pr.cellData (pr.index e)))
          (pr.getSource (0, 0) e (pr.cellData (pr.index e)) first,
            ⟨sys.A, setRhs sys.f (pr.index e)
              (pr.getSource (0, 0) e (pr.cellData (pr.index e)) first).2⟩)).2.A
          (pr.index e) (pr.index e) + (storageEntries pr first e).1 := by
    rw [hA]
    unfold assembleCell
    simp only []
    rw [setEntry_same, faceLoop_fst]
    rfl
  rw [hcols]
  simp only [System.rowSum, List.map_cons, List.sum_cons] at h1 ⊢
  rw [List.map_congr_left hrest, hdiag, add_right_comm]
  unfold Problem.neighborIds
  rw [h1]
  show sys.A (pr.index e) (pr.index e) + _ + _ + _ = _
  rw [h0]
  unfold cellFluxEntries sourceEntries
  abel


theorem boundaryCoeffSum_closed (hb : ∀ en is cd, (pr.getFluxOnBoundary en is cd first).1 = 0)
    (cd : CD) (fs : List F) (en : Entries S) :
    boundaryCoeffSum pr (fs.zip (fluxEntries pr first cd en fs)) = 0 := by
  induction fs generalizing en with
  | nil => simp [boundaryCoeffSum, fluxEntries]
  | cons is rest ih =>
    have h1 := ih (faceEntries pr first cd en is)
    unfold boundaryCoeffSum at h1 ⊢
    rw [zip_fluxEntries_cons]
    by_cases h : pr.gridView.neighbor is = true
    · simpa [List.filter_cons, h] using h1
    · have hf : faceEntries pr first cd en is = pr.getFluxOnBoundary en is cd first := by
        simp [faceEntries, h]
      rw [hf] at h1 ⊢
      simp [List.filter_cons, h, h1, hb]

end SymmetryExact

section SymmetryClaims

variable {E F CD S : Type} [AddCommGroup S]

/-- C18: for every grid with symmetric adjacency in which every cell has
pairwise distinct interior neighbours, if the flux evaluator returns the same
matrix coefficient for a shared face from both sides, then the matrix produced
by `assemble` is symmetric: `Matrix[I][J] = Matrix[J][I]` for all `I`, `J`. -/
theorem C18_symmetric_matrix (pr : Problem E F CD S) (first : Bool) (s : System S)
    (hsym : pr.Symmetric) (hnd : ∀ e ∈ pr.gridView.elements, (pr.neighborIds e).Nodup)
    (hflux : pr.SymmetricFlux first) (i j : Nat) :
    (assemble pr first s).A i j = (assemble pr first s).A j i := by
  by_cases hij : i = j
  · rw [hij]
  by_cases h : ∃ e ∈ pr.gridView.elements, pr.index e = i ∧ j ∈ pr.neighborIds e
  · obtain ⟨e, he, rfl, hj⟩ := h
    obtain ⟨e', he', rfl, hback⟩ := symmetric_neighbor_back pr hsym e he j hj
    obtain ⟨p, hp, hpn, hpo, hpA⟩ := assemble_offdiag_neighbor pr first s e he (hnd e he)
      (pr.index e') hj (Ne.symm hij)
    obtain ⟨p', hp', hpn', hpo', hpA'⟩ := assemble_offdiag_neighbor pr first s e' he'
      (hnd e' he') (pr.index e) hback hij
    rw [hpA, hpA', hflux e he e' he' p hp p' hp' hpn hpn' hpo hpo']
  · have h' : ¬ ∃ e ∈ pr.gridView.elements, pr.index e = j ∧ i ∈ pr.neighborIds e := by
      rintro ⟨e', he', rfl, hi⟩
      obtain ⟨e, he, rfl, hback⟩ := symmetric_neighbor_back pr hsym e' he' i hi
      exact h ⟨e, he, rfl, hback⟩
    rw [assemble_offdiag_zero pr first s i j (Ne.symm hij)
        (fun e he hi hj => h ⟨e, he, hi, hj⟩),
      assemble_offdiag_zero pr first s j i hij (fun e he hj hi => h' ⟨e, he, hj, hi⟩)]

/-- With exact arithmetic: the diagonal, the off-diagonal entries and the row sum of a
cell without a face that leads back to it, also with repeated neighbours. -/
theorem assemble_repeated_neighbor_exact (pr : Problem E F CD S) (first : Bool) (s : System S)
    (e : E) (he : e ∈ pr.gridView.elements) (hself : pr.index e ∉ pr.neighborIds e) :
    (assemble pr first s).A (pr.index e) (pr.index e) =
        (storageEntries pr first e).1 + matrixCoeffSum (cellFluxEntries pr first e) ∧
    (∀ (pre post : List F) (is : F), pr.gridView.intersections e = pre ++ is :: post →
      pr.gridView.neighbor is = true →
      (∀ x ∈ post, pr.gridView.neighbor x = true →
        pr.outsideIndex x ≠ pr.outsideIndex is) →
      (assemble pr first s).A (pr.index e) (pr.outsideIndex is) =
        -(pr.getFlux
            (entriesAfter pr first (pr.cellData (pr.index e)) (sourceEntries pr first e) pre)
            is (pr.cellData (pr.index e)) first).1) ∧
    (assemble pr first s).rowSum (pr.index e) (pr.rowColumns e) =
        (storageEntries pr first e).1 + boundaryCoeffSum pr (cellFluxEntries pr first e)
          + shadowedCoeffSum pr (cellFluxEntries pr first e) ∧
    (pr.Closed → (assemble pr first s).rowSum (pr.index e) (pr.rowColumns e) =
        shadowedCoeffSum pr (cellFluxEntries pr first e)) := by
  obtain ⟨sys, h0, hA, _⟩ := assemble_row pr first s e he
  have hsum := assemble_rowSum_shadowed pr first s e he hself
  refine ⟨?_, ?_, hsum, ?_⟩
  · rw [hA, assembleCell_A_diag pr first sys e hself, h0]
    abel
  · intro pre post is hfs hnb hlast
    have hne : pr.outsideIndex is ≠ pr.index e := by
      intro hc
      apply hself
      rw [← hc]
      refine List.mem_map_of_mem _ (List.mem_filter.mpr ⟨?_, hnb⟩)
      rw [hfs]
      exact List.mem_append_right _ (List.mem_cons_self _ _)
    rw [hA, assembleCell_A_off pr first sys e pre post is hfs hnb hne hlast]
  · intro hclosed
    have hsto : (storageEntries pr first e).1 = 0 := by
      unfold storageEntries
      rw [hclosed.2.2]
    have hbnd : boundaryCoeffSum pr (cellFluxEntries pr first e) = 0 :=
      boundaryCoeffSum_closed pr first (fun en is cd => by rw [hclosed.1]) _ _ _
    rw [hsum, hsto, hbnd]
    abel

end SymmetryClaims


/-! ## Scenarios for symmetry, repeated neighbours and the accumulator -/

section MoreScenarios

theorem scenarioA_symmetricFlux : scenarioA.SymmetricFlux true := by
  unfold Problem.SymmetricFlux
  decide

/-- C18, witness: the 3-cell chain of scenario A. -/
theorem C18_symmetric_matrix_witness :
    (scenarioA.Symmetric ∧
      (∀ e ∈ scenarioA.gridView.elements, (scenarioA.neighborIds e).Nodup) ∧
      scenarioA.SymmetricFlux true) ∧
    ∀ i j, (assemble scenarioA true System.zero).A i j =
      (assemble scenarioA true System.zero).A j i :=
  ⟨⟨scenarioA_symmetric, by decide, scenarioA_symmetricFlux⟩,
    C18_symmetric_matrix scenarioA true System.zero scenarioA_symmetric (by decide)
      scenarioA_symmetricFlux⟩


/-- C20, witness: the evaluators of scenario A overwrite both components; with
the boundary-flux evaluator of `untouchedBoundary`, which leaves the accumulator
untouched, `assemble` reuses the source pair `(0, 7)` and the right-hand side is
`14`, where the model with fresh pairs gives `7`. -/
theorem C20_accumulator_refinement_witness :
    (scenarioA.Overwrites ∧
      (assemble untouchedBoundary true System.zero).f 0 = 14 ∧
      (specAssemble untouchedBoundary untouchedBoundary.evaluators true).f 0 = 7) ∧
    (assemble scenarioA true System.zero = specAssemble scenarioA scenarioA.evaluators true ∧
    (∀ (I : Nat) (cd : Unit) (en : Entries ℚ) (sys : System ℚ) (fs : List Face),
      (fs.foldl (fluxStep scenarioA true I cd) (en, sys)).1 =
        entriesAfter scenarioA true cd en fs) ∧
    (∀ (I : Nat) (cd : Unit) (st : Entries ℚ × System ℚ) (is : Face),
      scenarioA.gridView.neighbor is = true →
        ((scenarioA.getFlux st.1 is cd true).1 = st.1.1 →
          (fluxStep scenarioA true I cd st is).2.A I (scenarioA.outsideIndex is) = -st.1.1) ∧
        ((scenarioA.getFlux st.1 is cd true).2 = st.1.2 →
          (fluxStep scenarioA true I cd st is).2.f I = st.2.f I - st.1.2))) :=
  have hO : scenarioA.Overwrites :=
    ⟨fun _ _ _ _ _ => rfl, fun _ _ _ _ _ => rfl, fun _ _ _ _ _ => rfl, fun _ _ _ _ _ => rfl⟩
  ⟨⟨hO,
      by simp [assemble, untouchedBoundary, tableGrid, List.range, List.range.loop,
        assembleCell, fluxStep, setRhs, setEntry, System.zero, Problem.outsideIndex,
        List.enum, List.enumFrom]; norm_num,
      by simp [specAssemble, specAssembleCell, specFluxStep, Problem.evaluators,
        untouchedBoundary, tableGrid, List.range, List.range.loop, setRhs, setEntry,
        System.zero, Problem.outsideIndex, List.enum, List.enumFrom]⟩,
    C20_accumulator_refinement scenarioA true System.zero hO⟩

end MoreScenarios


/-! ## Serialization and the reserved capacity -/

section SerializationClaims

variable {E F CD S : Type}

theorem serializeLoop_eq (pr : Problem E F CD S) (m : Model S) (l : List E)
    (out : ValueStream S) :
    l.foldl (fun st e => serializeEntity pr st.1 st.2 e) (out, m) =
      (out ++ l.map (fun e => m.pressure (pr.index e)), m) := by
  induction l generalizing out with
  | nil => simp
  | cons e rest ih =>
    rw [List.foldl_cons]
    show List.foldl _ (out ++ [m.pressure (pr.index e)], m) rest = _
    rw [ih, List.map_cons, List.append_assoc]
    rfl

theorem deserializeLoop_eq (pr : Problem E F CD S) (m : Model S) (l : List E)
    (extra : ValueStream S) (m' : Model S) :
    (l.foldl (fun st e => deserializeEntity pr st.1 st.2 e)
        (l.map (fun e => m.pressure (pr.index e)) ++ extra, m')).1 = extra ∧
    (∀ e ∈ l, (l.foldl (fun st e => deserializeEntity pr st.1 st.2 e)
        (l.map (fun e => m.pressure (pr.index e)) ++ extra, m')).2.pressure (pr.index e) =
          m.pressure (pr.index e)) ∧
    (∀ i, i ∉ l.map pr.index →
      (l.foldl (fun st e => deserializeEntity pr st.1 st.2 e)
        (l.map (fun e => m.pressure (pr.index e)) ++ extra, m')).2.pressure i =
          m'.pressure i) ∧
    (l.foldl (fun st e => deserializeEntity pr st.1 st.2 e)
        (l.map (fun e => m.pressure (pr.index e)) ++ extra, m')).2.sys = m'.sys := by
  induction l generalizing m' with
  | nil => exact ⟨rfl, fun _ h => (by cases h), fun _ _ => rfl, rfl⟩
  | cons x rest ih =>
    obtain ⟨h1, h2, h3, h4⟩ :=
      ih ⟨m'.sys, setRhs m'.pressure (pr.index x) (m.pressure (pr.index x))⟩
    rw [List.map_cons, List.cons_append, List.foldl_cons]
    refine ⟨h1, ?_, ?_, h4⟩
    · intro e he
      rcases List.mem_cons.mp he with rfl | he'
      · by_cases hin : pr.index e ∈ rest.map pr.index
        · obtain ⟨e', he', hidx⟩ := List.mem_map.mp hin
          have := h2 e' he'
          rw [hidx] at this
          exact this
        · exact (h3 _ hin).trans (setRhs_same _ _ _)
      · exact h2 e he'
    · intro i hi
      rw [List.map_cons, List.mem_cons, not_or] at hi
      exact (h3 i hi.2).trans (setRhs_other _ _ _ _ hi.1)

/-- C21: `serializeEntity` for an element emits exactly one value, component 0
of the pressure entry at the index of the element, and leaves the pressure
field unchanged; `deserializeEntity` for an element assigns the value read to
component 0 of the pressure entry at the index of the element and leaves the
pressure of every other cell unchanged; so writing all cells and then reading
them in the same traversal order restores the value of each cell to that
cell. -/
theorem C21_serialization (pr : Problem E F CD S) :
    (∀ (out : ValueStream S) (m : Model S) (e : E),
      serializeEntity pr out m e = (out ++ [m.pressure (pr.index e)], m)) ∧
    (∀ (v : S) (rest : ValueStream S) (m : Model S) (e : E),
      (deserializeEntity pr (v :: rest) m e).1 = rest ∧
      (deserializeEntity pr (v :: rest) m e).2.pressure (pr.index e) = v ∧
      (∀ i, i ≠ pr.index e →
        (deserializeEntity pr (v :: rest) m e).2.pressure i = m.pressure i) ∧
      (deserializeEntity pr (v :: rest) m e).2.sys = m.sys) ∧
    (∀ (m m' : Model S) (extra : ValueStream S),
      (serializeEntities pr [] m).2 = m ∧
      (serializeEntities pr [] m).1 =
        pr.gridView.elements.map (fun e => m.pressure (pr.index e)) ∧
      (deserializeEntities pr ((serializeEntities pr [] m).1 ++ extra) m').1 = extra ∧
      (∀ e ∈ pr.gridView.elements,
        (deserializeEntities pr ((serializeEntities pr [] m).1 ++ extra) m').2.pressure
          (pr.index e) = m.pressure (pr.index e)) ∧
      (∀ i, i ∉ pr.gridView.elements.map pr.index →
        (deserializeEntities pr ((serializeEntities pr [] m).1 ++ extra) m').2.pressure i =
          m'.pressure i)) := by
  refine ⟨fun _ _ _ => rfl, fun v rest m e => ⟨rfl, setRhs_same _ _ _,
    fun i hi => setRhs_other _ _ _ _ hi, rfl⟩, fun m m' extra => ?_⟩
  have hser : serializeEntities pr [] m =
      (pr.gridView.elements.map (fun e => m.pressure (pr.index e)), m) := by
    unfold serializeEntities
    rw [serializeLoop_eq, List.nil_append]
  obtain ⟨h1, h2, h3, _⟩ := deserializeLoop_eq pr m pr.gridView.elements extra m'
  rw [hser]
  exact ⟨rfl, rfl, h1, h2, h3⟩

/-- C21, witness: the 3-cell chain with the pressure field `p i = i + 1`, written
and read back into a field that is zero. -/
theorem C21_serialization_witness :
    (serializeEntities scenarioA [] ⟨System.zero, fun i => (i : ℚ) + 1⟩).1 =
        [0 + 1, 1 + 1, 2 + 1] ∧
    (∀ e ∈ scenarioA.gridView.elements,
      (deserializeEntities scenarioA
          ((serializeEntities scenarioA [] ⟨System.zero, fun i => (i : ℚ) + 1⟩).1 ++ [])
          ⟨System.zero, fun _ => 0⟩).2.pressure (scenarioA.index e) =
        (fun i : Nat => (i : ℚ) + 1) (scenarioA.index e)) :=
  ⟨by simp [serializeEntities, serializeEntity, scenarioA, tableProblem, tableGrid,
      chainCells, List.range, List.range.loop],
    ((C21_serialization scenarioA).2.2 ⟨System.zero, fun i => (i : ℚ) + 1⟩
      ⟨System.zero, fun _ => 0⟩ []).2.2.2.1⟩

theorem sum_rowsize_eq (pr : Problem E F CD S) (P : Pattern) (l : List E)
    (h : ∀ e ∈ l, P.rowsize (pr.index e) = 1 + pr.interiorNeighborCount e) :
    P.requestedNonzeros (l.map pr.index) =
      (l.map (fun e => 1 + pr.interiorNeighborCount e)).sum := by
  unfold Pattern.requestedNonzeros
  rw [List.map_map]
  congr 1
  exact List.map_congr_left (fun e he => h e he)

/-- C22: the constructor reserves capacity for `(2 * dim + 1) * N` nonzeros for
a grid of `N` cells; the total number of nonzeros that `initializeMatrix`
requests is the sum over the cells of `1 +` the number of interior faces; it is
at most the capacity whenever every cell has at most `2 * dim` interior faces,
and it exceeds the capacity on a grid all of whose cells have more than
`2 * dim` interior faces; for `dim = 1` the periodic grid in which cell 0 has
three interior faces is a grid on which it exceeds the capacity. -/
theorem C22_nonzero_capacity (dim : Nat) (pr : Problem E F CD S) :
    nonzeroCapacity dim pr = (2 * dim + 1) * pr.gridView.elements.length ∧
    (∃ P, initializeMatrix pr = .ok P ∧
      P.requestedNonzeros (pr.gridView.elements.map pr.index) =
        (pr.gridView.elements.map (fun e => 1 + pr.interiorNeighborCount e)).sum ∧
      ((∀ e ∈ pr.gridView.elements, pr.interiorNeighborCount e ≤ 2 * dim) →
        P.requestedNonzeros (pr.gridView.elements.map pr.index) ≤ nonzeroCapacity dim pr) ∧
      ((∀ e ∈ pr.gridView.elements, 2 * dim < pr.interiorNeighborCount e) →
        pr.gridView.elements ≠ [] →
        nonzeroCapacity dim pr < P.requestedNonzeros (pr.gridView.elements.map pr.index))) ∧
    (∃ e ∈ periodicSelf.gridView.elements, 2 * 1 < periodicSelf.interiorNeighborCount e) ∧
    (∃ P, initializeMatrix periodicSelf = .ok P ∧
      nonzeroCapacity 1 periodicSelf <
        P.requestedNonzeros (periodicSelf.gridView.elements.map periodicSelf.index)) := by
  have hgen : ∀ {E' F' CD' S' : Type} (q : Problem E' F' CD' S'),
      ∃ P, initializeMatrix q = .ok P ∧
        P.requestedNonzeros (q.gridView.elements.map q.index) =
          (q.gridView.elements.map (fun e => 1 + q.interiorNeighborCount e)).sum := by
    intro E' F' CD' S' q
    obtain ⟨P, hP, hrow, _⟩ := initializeMatrix_ok q
    refine ⟨P, hP, sum_rowsize_eq q P _ (fun e he => ?_)⟩
    rw [(hrow e he).2, rowSize_eq, Problem.neighborIds, List.length_map,
      Problem.interiorNeighborCount, List.countP_eq_length_filter]
  refine ⟨rfl, ?_, ⟨0, by decide, by decide⟩, ?_⟩
  · obtain ⟨P, hP, hsum⟩ := hgen pr
    refine ⟨P, hP, hsum, fun hle => ?_, fun hgt hne => ?_⟩
    · rw [hsum, nonzeroCapacity]
      have h := List.sum_le_card_nsmul
        (pr.gridView.elements.map (fun e => 1 + pr.interiorNeighborCount e)) (2 * dim + 1)
        (fun x hx => by
          obtain ⟨e, he, rfl⟩ := List.mem_map.mp hx
          have := hle e he
          omega)
      rw [List.length_map, smul_eq_mul, Nat.mul_comm] at h
      exact h
    · rw [hsum, nonzeroCapacity]
      have h := List.card_nsmul_le_sum
        (pr.gridView.elements.map (fun e => 1 + pr.interiorNeighborCount e)) (2 * dim + 2)
        (fun x hx => by
          obtain ⟨e, he, rfl⟩ := List.mem_map.mp hx
          have := hgt e he
          omega)
      rw [List.length_map, smul_eq_mul] at h
      have hpos : 0 < pr.gridView.elements.length := List.length_pos.mpr hne
      calc (2 * dim + 1) * pr.gridView.elements.length
          < (2 * dim + 2) * pr.gridView.elements.length :=
            Nat.mul_lt_mul_of_pos_right (by omega) hpos
        _ = pr.gridView.elements.length * (2 * dim + 2) := Nat.mul_comm _ _
        _ ≤ _ := h
  · obtain ⟨P, hP, hsum⟩ := hgen periodicSelf
    refine ⟨P, hP, ?_⟩
    rw [hsum]
    decide

end SerializationClaims


/-! ## The accumulation in traversal order, for every scalar arithmetic -/

section OrderLemmas

variable {E F CD S : Type} [Zero S] [Add S] [Sub S] [Neg S]
variable (pr : Problem E F CD S) (first : Bool)

omit [Zero S] in
theorem faceLoop_f_fold (I : Nat) (cd : CD) (fs : List F) (st : Entries S × System S) :
    (fs.foldl (fluxStep pr first I cd) st).2.f I =
      rhsFold pr (fs.zip (fluxEntries pr first cd st.1 fs)) (st.2.f I) := by
  induction fs generalizing st with
  | nil => rfl
  | cons is rest ih =>
    rw [List.foldl_cons, ih, fluxStep_fst, zip_fluxEntries_cons]
    unfold rhsFold
    rw [List.foldl_cons]
    congr 1
    unfold fluxStep faceEntries
    by_cases h : pr.gridView.neighbor is = true
    · simp only [h, if_true]
      exact setRhs_same _ _ _
    · simp only [h, Bool.false_eq_true, if_false]
      exact setRhs_same _ _ _

omit [Zero S] in
theorem faceLoop_A_diag_fold (I : Nat) (cd : CD) (fs : List F) (st : Entries S × System S)
    (hn : ∀ is ∈ fs, pr.gridView.neighbor is = true → pr.outsideIndex is ≠ I) :
    (fs.foldl (fluxStep pr first I cd) st).2.A I I =
      diagFold (fs.zip (fluxEntries pr first cd st.1 fs)) (st.2.A I I) := by
  induction fs generalizing st with
  | nil => rfl
  | cons is rest ih =>
    rw [List.foldl_cons, ih _ (fun x hx => hn x (List.mem_cons_of_mem _ hx)),
      fluxStep_A_diag _ _ _ _ _ _ (hn is (List.mem_cons_self _ _)), fluxStep_fst,
      zip_fluxEntries_cons]
    rfl

theorem assemble_rhs_fold (s : System S) (e : E) (he : e ∈ pr.gridView.elements) :
    (assemble pr first s).f (pr.index e) =
      rhsFold pr (cellFluxEntries pr first e) (sourceEntries pr first e).2
        + (storageEntries pr first e).2 := by
  obtain ⟨sys, _, _, hf⟩ := assemble_row pr first s e he
  rw [hf]
  unfold assembleCell
  simp only []
  rw [setRhs_same, faceLoop_f_fold, faceLoop_fst]
  dsimp only
  rw [setRhs_same]
  rfl

theorem assemble_diag_fold (s : System S) (e : E) (he : e ∈ pr.gridView.elements)
    (hself : pr.index e ∉ pr.neighborIds e) :
    (assemble pr first s).A (pr.index e) (pr.index e) =
      diagFold (cellFluxEntries pr first e) 0 + (storageEntries pr first e).1 := by
  obtain ⟨sys, h0, hA, _⟩ := assemble_row pr first s e he
  rw [hA]
  unfold assembleCell
  simp only []
  rw [setEntry_same, faceLoop_A_diag_fold _ _ _ _ _ _ (not_mem_neighbors pr _ _ hself),
    faceLoop_fst]
  dsimp only
  rw [h0]
  rfl

theorem assemble_offdiag_last (s : System S) (e : E) (he : e ∈ pr.gridView.elements)
    (hself : pr.index e ∉ pr.neighborIds e) (pre post : List F) (is : F)
    (hfs : pr.gridView.intersections e = pre ++ is :: post)
    (hnb : pr.gridView.neighbor is = true)
    (hlast : ∀ x ∈ post, pr.gridView.neighbor x = true →
      pr.outsideIndex x ≠ pr.outsideIndex is) :
    (assemble pr first s).A (pr.index e) (pr.outsideIndex is) =
      -(pr.getFlux
          (entriesAfter pr first (pr.cellData (pr.index e)) (sourceEntries pr first e) pre)
          is (pr.cellData (pr.index e)) first).1 := by
  obtain ⟨sys, _, hA, _⟩ := assemble_row pr first s e he
  have hne : pr.outsideIndex is ≠ pr.index e := by
    intro hc
    apply hself
    rw [← hc]
    refine List.mem_map_of_mem _ (List.mem_filter.mpr ⟨?_, hnb⟩)
    rw [hfs]
    exact List.mem_append_right _ (List.mem_cons_self _ _)
  rw [hA, assembleCell_A_off pr first sys e pre post is hfs hnb hne hlast]

theorem assemble_source_irrelevant (s : System S)
    (g : Entries S → E → CD → Bool → Entries S)
    (hg : ∀ en e cd b, (g en e cd b).2 = (pr.getSource en e cd b).2)
    (hO : pr.OverwritesMatrixCoeff) :
    assemble { pr with getSource := g } first s = assemble pr first s := by
  have hcell : assembleCell { pr with getSource := g } first = assembleCell pr first := by
    funext sys e
    exact assembleCell_source_irrelevant pr first g hg hO sys e
  show List.foldl (assembleCell { pr with getSource := g } first) System.zero
    pr.gridView.elements = _
  rw [hcell]
  rfl

end OrderLemmas

/-! ## Diagonal, right-hand side and row sums: exact and rounding arithmetic -/

section ArithmeticClaims

variable {E F CD S : Type} [Zero S] [Add S] [Sub S] [Neg S]

/-- C3 (as amended): for every grid and every cell `I` none of whose interior
faces leads back to `I`, after `assemble(first)` the diagonal entry
`Matrix[I][I]` is the value accumulated from zero by adding, in traversal order,
the matrix coefficient of every face of `I` (flux evaluator on interior faces,
boundary-flux evaluator on boundary faces) and then the storage coefficient;
when the arithmetic of `Scalar` is exact this is the storage coefficient plus
the sum of the face coefficients.  The source term writes no matrix entry, and
the diagonal does not depend on component 0 of the source evaluator's result
when the flux, boundary-flux and storage evaluators overwrite component 0 of
the accumulator. -/
theorem C3_diagonal_entry (pr : Problem E F CD S) (first : Bool) (s : System S)
    (e : E) (he : e ∈ pr.gridView.elements) (hself : pr.index e ∉ pr.neighborIds e) :
    (assemble pr first s).A (pr.index e) (pr.index e) =
        diagFold (cellFluxEntries pr first e) 0 + (storageEntries pr first e).1 ∧
    (ExactScalar S → (assemble pr first s).A (pr.index e) (pr.index e) =
        (storageEntries pr first e).1 + matrixCoeffSum (cellFluxEntries pr first e)) ∧
    (∀ sys : System S, (sourceStep pr first e sys).2.A = sys.A) ∧
    (pr.OverwritesMatrixCoeff → ∀ g : Entries S → E → CD → Bool → Entries S,
      (∀ en x cd b, (g en x cd b).2 = (pr.getSource en x cd b).2) →
        (assemble { pr with getSource := g } first s).A (pr.index e) (pr.index e) =
          (assemble pr first s).A (pr.index e) (pr.index e)) := by
  refine ⟨assemble_diag_fold pr first s e he hself, fun hS => ?_, fun _ => rfl,
    fun hO g hg => ?_⟩
  · exact @assemble_diag_exact E F CD S hS.toAddCommGroup pr first s e he hself
  · rw [assemble_source_irrelevant pr first s g hg hO]

/-- C4 (as amended): for every grid and every cell `I`, after `assemble(first)`
the entry `RHS[I]` is the value accumulated from the rhs coefficient of the
source by subtracting the rhs coefficient of every interior face and adding
that of every boundary face of `I`, in traversal order, and then adding the rhs
coefficient of the storage; when the arithmetic of `Scalar` is exact this is
`source.b` minus the sum of the interior coefficients plus the sum of the
boundary coefficients plus `storage.b`. -/
theorem C4_rhs_entry (pr : Problem E F CD S) (first : Bool) (s : System S)
    (e : E) (he : e ∈ pr.gridView.elements) :
    (assemble pr first s).f (pr.index e) =
        rhsFold pr (cellFluxEntries pr first e) (sourceEntries pr first e).2
          + (storageEntries pr first e).2 ∧
    (ExactScalar S → (assemble pr first s).f (pr.index e) =
        (sourceEntries pr first e).2 - interiorRhsSum pr (cellFluxEntries pr first e)
          + boundaryRhsSum pr (cellFluxEntries pr first e)
          + (storageEntries pr first e).2) :=
  ⟨assemble_rhs_fold pr first s e he,
    fun hS => @assemble_rhs_exact E F CD S hS.toAddCommGroup pr first s e he⟩

/-- C6 (as amended): when the arithmetic of `Scalar` is exact, for every grid
describing a closed system and every cell `I` whose interior neighbours are
pairwise distinct and different from `I`, the sum of the entries of row `I` of
the matrix produced by `assemble` is zero. -/
theorem C6_closed_row_sum (pr : Problem E F CD S) (first : Bool) (s : System S)
    (e : E) (hS : ExactScalar S) (he : e ∈ pr.gridView.elements) (hclosed : pr.Closed)
    (hself : pr.index e ∉ pr.neighborIds e) (hnd : (pr.neighborIds e).Nodup) :
    (assemble pr first s).rowSum (pr.index e) (pr.rowColumns e) = 0 :=
  @assemble_rowSum_closed E F CD S hS.toAddCommGroup pr first s e he hclosed hself hnd

/-- C19 (as amended): for every cell `I` none of whose interior faces leads
back to `I`, also when `I` has two or more interior faces towards the same
neighbour `J`: `assemble` adds the matrix coefficient of every face to the
diagonal `Matrix[I][I]`, in traversal order, and leaves `Matrix[I][J]` equal to
the negation of the coefficient of the last face towards `J`; when the
arithmetic of `Scalar` is exact, the diagonal is the storage coefficient plus
the sum of the face coefficients and the sum of row `I` is the storage
coefficient plus the boundary coefficients plus the coefficients of the earlier
faces towards a repeated neighbour, which in a closed system is the sum of the
coefficients of these earlier faces. -/
theorem C19_repeated_neighbor (pr : Problem E F CD S) (first : Bool) (s : System S)
    (e : E) (he : e ∈ pr.gridView.elements) (hself : pr.index e ∉ pr.neighborIds e) :
    (assemble pr first s).A (pr.index e) (pr.index e) =
        diagFold (cellFluxEntries pr first e) 0 + (storageEntries pr first e).1 ∧
    (∀ (pre post : List F) (is : F), pr.gridView.intersections e = pre ++ is :: post →
      pr.gridView.neighbor is = true →
      (∀ x ∈ post, pr.gridView.neighbor x = true →
        pr.outsideIndex x ≠ pr.outsideIndex is) →
      (assemble pr first s).A (pr.index e) (pr.outsideIndex is) =
        -(pr.getFlux
            (entriesAfter pr first (pr.cellData (pr.index e)) (sourceEntries pr first e) pre)
            is (pr.cellData (pr.index e)) first).1) ∧
    (ExactScalar S →
      (assemble pr first s).A (pr.index e) (pr.index e) =
          (storageEntries pr first e).1 + matrixCoeffSum (cellFluxEntries pr first e) ∧
      (assemble pr first s).rowSum (pr.index e) (pr.rowColumns e) =
          (storageEntries pr first e).1 + boundaryCoeffSum pr (cellFluxEntries pr first e)
            + shadowedCoeffSum pr (cellFluxEntries pr first e) ∧
      (pr.Closed → (assemble pr first s).rowSum (pr.index e) (pr.rowColumns e) =
          shadowedCoeffSum pr (cellFluxEntries pr first e))) := by
  refine ⟨assemble_diag_fold pr first s e he hself,
    fun pre post is hfs hnb hlast =>
      assemble_offdiag_last pr first s e he hself pre post is hfs hnb hlast,
    fun hS => ?_⟩
  have h := @assemble_repeated_neighbor_exact E F CD S hS.toAddCommGroup pr first s e he hself
  exact ⟨h.1, h.2.2.1, h.2.2.2⟩

end ArithmeticClaims


/-! ## The arithmetic claims on concrete systems -/

section ArithmeticScenarios

/-- C3, witness: cell 1 of the 3-cell chain over the rationals, whose arithmetic
is exact; the diagonal entry is `2`. -/
theorem C3_diagonal_entry_witness :
    (1 ∈ scenarioA.gridView.elements ∧ scenarioA.index 1 ∉ scenarioA.neighborIds 1 ∧
      ExactScalar ℚ) ∧
    (assemble scenarioA true System.zero).A (scenarioA.index 1) (scenarioA.index 1) =
      diagFold (cellFluxEntries scenarioA true 1) 0 + (storageEntries scenarioA true 1).1 ∧
    (assemble scenarioA true System.zero).A (scenarioA.index 1) (scenarioA.index 1) =
      (storageEntries scenarioA true 1).1 +
        matrixCoeffSum (cellFluxEntries scenarioA true 1) ∧
    (∀ sys : System ℚ, (sourceStep scenarioA true 1 sys).2.A = sys.A) ∧
    (storageEntries scenarioA true 1).1 +
        matrixCoeffSum (cellFluxEntries scenarioA true 1) = 2 :=
  ⟨⟨by decide, by decide, ⟨add_assoc, add_comm, zero_add, neg_add_cancel, sub_eq_add_neg⟩⟩,
    (C3_diagonal_entry scenarioA true System.zero 1 (by decide) (by decide)).1,
    (C3_diagonal_entry scenarioA true System.zero 1 (by decide) (by decide)).2.1
      ⟨add_assoc, add_comm, zero_add, neg_add_cancel, sub_eq_add_neg⟩,
    (C3_diagonal_entry scenarioA true System.zero 1 (by decide) (by decide)).2.2.1,
    (by
      simp [storageEntries, matrixCoeffSum, cellFluxEntries, fluxEntries, faceEntries,
        scenarioA, tableProblem, tableGrid, chainCells, List.enum, List.enumFrom]
      norm_num)⟩

/-- C3, counterexample, in three parts.  In the periodic grid of one cell both
faces lead back to the cell: the storage coefficient plus the face coefficients
is `2`, but `Matrix[0][0]` is `-1`.  With rounding arithmetic and the face
coefficients `1000`, `5`, `5` of a cell without a face back to itself,
`Matrix[0][0]` is `1000` while the storage coefficient plus the sum of the face
coefficients is `1010`.  With a boundary-flux evaluator that leaves the
accumulator untouched, `Matrix[0][0]` is `3` for the source pair `(3, 0)` and `0`
for the source pair `(0, 0)`: the source evaluator contributes to the diagonal. -/
theorem C3_counterexample_diagonal :
    ((storageEntries selfAdjacent true 0).1 +
        matrixCoeffSum (cellFluxEntries selfAdjacent true 0) = 2 ∧
      (assemble selfAdjacent true System.zero).A 0 0 = -1 ∧
      (assemble selfAdjacent true System.zero).A (selfAdjacent.index 0)
          (selfAdjacent.index 0) ≠
        (storageEntries selfAdjacent true 0).1 +
          matrixCoeffSum (cellFluxEntries selfAdjacent true 0)) ∧
    (0 ∈ roundedStar.gridView.elements ∧ roundedStar.index 0 ∉ roundedStar.neighborIds 0 ∧
      (assemble roundedStar true System.zero).A (roundedStar.index 0)
          (roundedStar.index 0) = ⟨1000⟩ ∧
      (storageEntries roundedStar true 0).1 +
          matrixCoeffSum (cellFluxEntries roundedStar true 0) = ⟨1010⟩ ∧
      (assemble roundedStar true System.zero).A (roundedStar.index 0)
          (roundedStar.index 0) ≠
        (storageEntries roundedStar true 0).1 +
          matrixCoeffSum (cellFluxEntries roundedStar true 0)) ∧
    (0 ∈ (untouchedSource 3).gridView.elements ∧
      (untouchedSource 3).index 0 ∉ (untouchedSource 3).neighborIds 0 ∧
      (assemble (untouchedSource 3) true System.zero).A 0 0 = 3 ∧
      (assemble (untouchedSource 0) true System.zero).A 0 0 = 0 ∧
      (assemble (untouchedSource 3) true System.zero).A 0 0 ≠
        (assemble (untouchedSource 0) true System.zero).A 0 0) := by
  have h1 : (storageEntries selfAdjacent true 0).1 +
      matrixCoeffSum (cellFluxEntries selfAdjacent true 0) = 2 := by
    simp [storageEntries, matrixCoeffSum, cellFluxEntries, fluxEntries, faceEntries,
      selfAdjacent, tableProblem, tableGrid, List.enum, List.enumFrom]
    norm_num
  have h2 : (assemble selfAdjacent true System.zero).A 0 0 = -1 := by
    simp [assemble, selfAdjacent, tableProblem, tableGrid, List.range, List.range.loop,
      assembleCell, fluxStep, setRhs, setEntry, System.zero, Problem.outsideIndex,
      List.enum, List.enumFrom]
  have h3 : (assemble (untouchedSource 3) true System.zero).A 0 0 = 3 := by
    simp [assemble, untouchedSource, tableGrid, List.range, List.range.loop,
      assembleCell, fluxStep, setRhs, setEntry, System.zero, Problem.outsideIndex,
      List.enum, List.enumFrom]
  have h4 : (assemble (untouchedSource 0) true System.zero).A 0 0 = 0 := by
    simp [assemble, untouchedSource, tableGrid, List.range, List.range.loop,
      assembleCell, fluxStep, setRhs, setEntry, System.zero, Problem.outsideIndex,
      List.enum, List.enumFrom]
  refine ⟨⟨h1, h2, ?_⟩, ⟨by decide, by decide, by decide, by decide, by decide⟩,
    ⟨by decide, by decide, h3, h4, ?_⟩⟩
  · show (assemble selfAdjacent true System.zero).A 0 0 ≠ _
    rw [h1, h2]
    norm_num
  · rw [h3, h4]
    norm_num

/-- C4, witness: cell 0 of the 3-cell chain with boundary data over the
rationals, whose arithmetic is exact. -/
theorem C4_rhs_entry_witness :
    (0 ∈ scenarioA5.gridView.elements ∧ ExactScalar ℚ) ∧
    (assemble scenarioA5 true System.zero).f (scenarioA5.index 0) =
      rhsFold scenarioA5 (cellFluxEntries scenarioA5 true 0) (sourceEntries scenarioA5 true 0).2
        + (storageEntries scenarioA5 true 0).2 ∧
    (assemble scenarioA5 true System.zero).f (scenarioA5.index 0) =
      (sourceEntries scenarioA5 true 0).2
        - interiorRhsSum scenarioA5 (cellFluxEntries scenarioA5 true 0)
        + boundaryRhsSum scenarioA5 (cellFluxEntries scenarioA5 true 0)
        + (storageEntries scenarioA5 true 0).2 :=
  ⟨⟨by decide, ⟨add_assoc, add_comm, zero_add, neg_add_cancel, sub_eq_add_neg⟩⟩,
    (C4_rhs_entry scenarioA5 true System.zero 0 (by decide)).1,
    (C4_rhs_entry scenarioA5 true System.zero 0 (by decide)).2
      ⟨add_assoc, add_comm, zero_add, neg_add_cancel, sub_eq_add_neg⟩⟩

/-- C4, counterexample: with rounding arithmetic, the source coefficient `1` and
the interior rhs coefficients `1000` and `-1000`, the statements of `assemble`
give `RHS[0] = 0`, while `source.b` minus the sum of the interior coefficients
plus the sum of the boundary coefficients plus `storage.b` is `1`. -/
theorem C4_counterexample_rounding :
    0 ∈ roundedRhs.gridView.elements ∧
    (assemble roundedRhs true System.zero).f (roundedRhs.index 0) = ⟨0⟩ ∧
    (sourceEntries roundedRhs true 0).2
        - interiorRhsSum roundedRhs (cellFluxEntries roundedRhs true 0)
        + boundaryRhsSum roundedRhs (cellFluxEntries roundedRhs true 0)
        + (storageEntries roundedRhs true 0).2 = ⟨1⟩ ∧
    (assemble roundedRhs true System.zero).f (roundedRhs.index 0) ≠
      (sourceEntries roundedRhs true 0).2
        - interiorRhsSum roundedRhs (cellFluxEntries roundedRhs true 0)
        + boundaryRhsSum roundedRhs (cellFluxEntries roundedRhs true 0)
        + (storageEntries roundedRhs true 0).2 :=
  ⟨by decide, by decide, by decide, by decide⟩

/-- C6, witness: cell 1 of the 3-cell chain over the rationals, a closed
system with exact arithmetic. -/
theorem C6_closed_row_sum_witness :
    (ExactScalar ℚ ∧ 1 ∈ scenarioA.gridView.elements ∧ scenarioA.Closed ∧
      scenarioA.index 1 ∉ scenarioA.neighborIds 1 ∧ (scenarioA.neighborIds 1).Nodup) ∧
    (assemble scenarioA true System.zero).rowSum (scenarioA.index 1)
        (scenarioA.rowColumns 1) = 0 :=
  ⟨⟨⟨add_assoc, add_comm, zero_add, neg_add_cancel, sub_eq_add_neg⟩, by decide,
      ⟨fun _ _ _ _ => rfl, fun _ _ _ _ => rfl, fun _ _ _ _ => rfl⟩, by decide, by decide⟩,
    C6_closed_row_sum scenarioA true System.zero 1
      ⟨add_assoc, add_comm, zero_add, neg_add_cancel, sub_eq_add_neg⟩ (by decide)
      ⟨fun _ _ _ _ => rfl, fun _ _ _ _ => rfl, fun _ _ _ _ => rfl⟩ (by decide) (by decide)⟩

/-- C6, counterexample, in two parts.  The periodic grid of two cells is a
closed system, the distinct columns of row 0 are 0 and 1, and the entries of
row 0 sum to `1`.  With rounding arithmetic, in a closed system whose cell 0 has
the pairwise distinct neighbours 1, 2 and 3 with the face coefficients `1000`,
`5` and `5`, row 0 holds `1000`, `-1000`, `-5`, `-5` and sums to `-10`. -/
theorem C6_counterexample_row_sum :
    (periodicPair.Closed ∧ periodicPair.rowColumns 0 = [0, 1] ∧
      (assemble periodicPair true System.zero).rowSum (periodicPair.index 0)
        (periodicPair.rowColumns 0) = 1 ∧
      (assemble periodicPair true System.zero).rowSum (periodicPair.index 0)
        (periodicPair.rowColumns 0) ≠ 0) ∧
    (roundedStar.Closed ∧ 0 ∈ roundedStar.gridView.elements ∧
      roundedStar.neighborIds 0 = [1, 2, 3] ∧ roundedStar.rowColumns 0 = [0, 1, 2, 3] ∧
      (roundedStar.rowColumns 0).map ((assemble roundedStar true System.zero).A 0) =
        [⟨1000⟩, ⟨-1000⟩, ⟨-5⟩, ⟨-5⟩] ∧
      (assemble roundedStar true System.zero).rowSum (roundedStar.index 0)
        (roundedStar.rowColumns 0) = ⟨-10⟩ ∧
      (assemble roundedStar true System.zero).rowSum (roundedStar.index 0)
        (roundedStar.rowColumns 0) ≠ 0) := by
  have h : periodicPair.rowColumns 0 = [0, 1] := by decide
  have h1 : (assemble periodicPair true System.zero).rowSum (periodicPair.index 0)
      (periodicPair.rowColumns 0) = 1 := by
    rw [h]
    simp [System.rowSum, assemble, periodicPair, tableProblem, tableGrid, List.range,
      List.range.loop, assembleCell, fluxStep, setRhs, setEntry, System.zero,
      Problem.outsideIndex, List.enum, List.enumFrom]
    norm_num
  refine ⟨⟨⟨fun _ _ _ _ => rfl, fun _ _ _ _ => rfl, fun _ _ _ _ => rfl⟩, h, h1, ?_⟩,
    ⟨⟨fun _ _ _ _ => rfl, fun _ _ _ _ => rfl, fun _ _ _ _ => rfl⟩, by decide, by decide,
      by decide, by decide, by decide, by decide⟩⟩
  rw [h1]
  norm_num

/-- C19, witness: cell 0 of the periodic grid of two cells over the rationals,
whose two faces both lead to cell 1. -/
theorem C19_repeated_neighbor_witness :
    (0 ∈ periodicPair.gridView.elements ∧
      periodicPair.index 0 ∉ periodicPair.neighborIds 0 ∧
      periodicPair.neighborIds 0 = [1, 1] ∧ ExactScalar ℚ) ∧
    (assemble periodicPair true System.zero).A (periodicPair.index 0)
        (periodicPair.index 0) =
      diagFold (cellFluxEntries periodicPair true 0) 0 +
        (storageEntries periodicPair true 0).1 ∧
    (∀ (pre post : List Face) (is : Face),
      periodicPair.gridView.intersections 0 = pre ++ is :: post →
      periodicPair.gridView.neighbor is = true →
      (∀ x ∈ post, periodicPair.gridView.neighbor x = true →
        periodicPair.outsideIndex x ≠ periodicPair.outsideIndex is) →
      (assemble periodicPair true System.zero).A (periodicPair.index 0)
          (periodicPair.outsideIndex is) =
        -(periodicPair.getFlux
            (entriesAfter periodicPair true (periodicPair.cellData (periodicPair.index 0))
              (sourceEntries periodicPair true 0) pre)
            is (periodicPair.cellData (periodicPair.index 0)) true).1) ∧
    ((assemble periodicPair true System.zero).A (periodicPair.index 0)
          (periodicPair.index 0) =
        (storageEntries periodicPair true 0).1 +
          matrixCoeffSum (cellFluxEntries periodicPair true 0) ∧
    (assemble periodicPair true System.zero).rowSum (periodicPair.index 0)
        (periodicPair.rowColumns 0) =
      (storageEntries periodicPair true 0).1 +
        boundaryCoeffSum periodicPair (cellFluxEntries periodicPair true 0) +
        shadowedCoeffSum periodicPair (cellFluxEntries periodicPair true 0) ∧
    (periodicPair.Closed →
      (assemble periodicPair true System.zero).rowSum (periodicPair.index 0)
          (periodicPair.rowColumns 0) =
        shadowedCoeffSum periodicPair (cellFluxEntries periodicPair true 0))) :=
  ⟨⟨by decide, by decide, by decide,
      ⟨add_assoc, add_comm, zero_add, neg_add_cancel, sub_eq_add_neg⟩⟩,
    (C19_repeated_neighbor periodicPair true System.zero 0 (by decide) (by decide)).1,
    (C19_repeated_neighbor periodicPair true System.zero 0 (by decide) (by decide)).2.1,
    (C19_repeated_neighbor periodicPair true System.zero 0 (by decide) (by decide)).2.2
      ⟨add_assoc, add_comm, zero_add, neg_add_cancel, sub_eq_add_neg⟩⟩

/-- C19, counterexample, in two parts.  Cell 0 has two faces towards cell 1, with
coefficients `1` and `2`, and a third face, with coefficient `3`, that leads
back to cell 0: the system is closed and the coefficient of the earlier face
towards cell 1 is `1`, but the diagonal `Matrix[0][0]` is `-3`, not the sum `6`
of the face coefficients, and row 0 sums to `-5`.  With rounding arithmetic, in
a closed system whose cell 0 has two faces towards cell 1, with coefficients
`1000` and `5`, and one face towards cell 2, with coefficient `5`, row 0 holds
`1000`, `-5`, `-5` and sums to `990`, while the coefficient of the earlier face
towards cell 1 is `1000`. -/
theorem C19_counterexample_row_sum :
    (periodicSelf.Closed ∧ periodicSelf.neighborIds 0 = [1, 1, 0] ∧
      periodicSelf.rowColumns 0 = [1, 0] ∧
      shadowedCoeffSum periodicSelf (cellFluxEntries periodicSelf true 0) = 1 ∧
      matrixCoeffSum (cellFluxEntries periodicSelf true 0) = 6 ∧
      (assemble periodicSelf true System.zero).A 0 0 = -3 ∧
      (assemble periodicSelf true System.zero).rowSum (periodicSelf.index 0)
        (periodicSelf.rowColumns 0) = -5 ∧
      (assemble periodicSelf true System.zero).rowSum (periodicSelf.index 0)
          (periodicSelf.rowColumns 0) ≠
        shadowedCoeffSum periodicSelf (cellFluxEntries periodicSelf true 0)) ∧
    (roundedRepeat.Closed ∧ 0 ∈ roundedRepeat.gridView.elements ∧
      roundedRepeat.neighborIds 0 = [1, 1, 2] ∧ roundedRepeat.rowColumns 0 = [0, 1, 2] ∧
      (roundedRepeat.rowColumns 0).map ((assemble roundedRepeat true System.zero).A 0) =
        [⟨1000⟩, ⟨-5⟩, ⟨-5⟩] ∧
      (assemble roundedRepeat true System.zero).rowSum (roundedRepeat.index 0)
        (roundedRepeat.rowColumns 0) = ⟨990⟩ ∧
      shadowedCoeffSum roundedRepeat (cellFluxEntries roundedRepeat true 0) = ⟨1000⟩ ∧
      (assemble roundedRepeat true System.zero).rowSum (roundedRepeat.index 0)
          (roundedRepeat.rowColumns 0) ≠
        shadowedCoeffSum roundedRepeat (cellFluxEntries roundedRepeat true 0)) := by
  have hcols : periodicSelf.rowColumns 0 = [1, 0] := by decide
  have hsh : shadowedCoeffSum periodicSelf (cellFluxEntries periodicSelf true 0) = 1 := by
    simp [shadowedCoeffSum, cellFluxEntries, fluxEntries, faceEntries, sourceEntries,
      periodicSelf, tableProblem, tableGrid, List.enum, List.enumFrom,
      Problem.outsideIndex]
  have hsum : (assemble periodicSelf true System.zero).rowSum (periodicSelf.index 0)
      (periodicSelf.rowColumns 0) = -5 := by
    rw [hcols]
    simp [System.rowSum, assemble, periodicSelf, tableProblem, tableGrid, List.range,
      List.range.loop, assembleCell, fluxStep, setRhs, setEntry, System.zero,
      Problem.outsideIndex, List.enum, List.enumFrom]
    norm_num
  refine ⟨⟨⟨fun _ _ _ _ => rfl, fun _ _ _ _ => rfl, fun _ _ _ _ => rfl⟩, by decide, hcols,
      hsh, ?_, ?_, hsum, ?_⟩,
    ⟨⟨fun _ _ _ _ => rfl, fun _ _ _ _ => rfl, fun _ _ _ _ => rfl⟩, by decide, by decide,
      by decide, by decide, by decide, by decide, by decide⟩⟩
  · simp [matrixCoeffSum, cellFluxEntries, fluxEntries, faceEntries, sourceEntries,
      periodicSelf, tableProblem, tableGrid, List.enum, List.enumFrom]
    norm_num
  · simp [assemble, periodicSelf, tableProblem, tableGrid, List.range,
      List.range.loop, assembleCell, fluxStep, setRhs, setEntry, System.zero,
      Problem.outsideIndex, List.enum, List.enumFrom]
    norm_num
  · rw [hsum, hsh]
    norm_num

end ArithmeticScenarios

/-! ## The update cycle -/

section UpdateClaims

variable {E F CD S : Type} [Zero S] [Add S] [Sub S] [Neg S]

/-- C11: for every state, every record of earlier calls and both values of
`solveTwice`, `update(solveTwice)` makes exactly two calls on the pressure
model, one `assemble` with `first = false` followed by one `solve`; the matrix,
the pressure field and the right-hand side it leaves are those the linear solver
returns for the system assembled with `first = false` and the pressure field
held before; and the resulting state is the same for `update(true)` and
`update(false)`. -/
theorem C11_update_cycle (pr : Problem E F CD S) (solver : Solver S) (t : TracedModel S) :
    (∀ solveTwice, (updateT pr solver solveTwice t).calls =
        t.calls ++ [ModelCall.assemble false, ModelCall.solve]) ∧
    (∀ solveTwice,
      (updateT pr solver solveTwice t).model.sys.A =
        (solver (assemble pr false t.model.sys).A t.model.pressure
          (assemble pr false t.model.sys).f).1 ∧
      (updateT pr solver solveTwice t).model.pressure =
        (solver (assemble pr false t.model.sys).A t.model.pressure
          (assemble pr false t.model.sys).f).2.1 ∧
      (updateT pr solver solveTwice t).model.sys.f =
        (solver (assemble pr false t.model.sys).A t.model.pressure
          (assemble pr false t.model.sys).f).2.2) ∧
    (∀ solveTwice,
      (updateT pr solver solveTwice t).model = update pr solver solveTwice t.model) ∧
    updateT pr solver true t = updateT pr solver false t := by
  refine ⟨fun _ => ?_, fun _ => ⟨rfl, rfl, rfl⟩, fun _ => rfl, rfl⟩
  show (t.calls ++ [ModelCall.assemble false]) ++ [ModelCall.solve] = _
  rw [List.append_assoc]
  rfl

end UpdateClaims

/-- C11, on scenario B with the solver for diagonal systems and an empty record:
`update` makes the calls `assemble(false)`, `solve()` and leaves the pressure
`10 / 2 = 5` in cell 0, for both values of `solveTwice`. -/
theorem C11_update_cycle_witness :
    (updateT scenarioB diagonalSolver true ⟨⟨System.zero, fun _ => 0⟩, []⟩).calls =
      [ModelCall.assemble false, ModelCall.solve] ∧
    (updateT scenarioB diagonalSolver true ⟨⟨System.zero, fun _ => 0⟩, []⟩).model.pressure 0 =
      5 ∧
    (updateT scenarioB diagonalSolver false ⟨⟨System.zero, fun _ => 0⟩, []⟩).model.pressure 0 =
      5 := by
  have h := C11_update_cycle scenarioB diagonalSolver ⟨⟨System.zero, fun _ => 0⟩, []⟩
  have hp : (updateT scenarioB diagonalSolver true
      ⟨⟨System.zero, fun _ => 0⟩, []⟩).model.pressure 0 = 5 := by
    simp [updateT, solveT, assembleT, solve, diagonalSolver, assemble, scenarioB,
      tableProblem, tableGrid, List.range, List.range.loop, assembleCell, fluxStep, setRhs,
      setEntry, System.zero, Problem.outsideIndex, List.enum, List.enumFrom]
    norm_num
  refine ⟨h.1 true, hp, ?_⟩
  rw [← h.2.2.2]
  exact hp

end FVPressure
